import Mathlib

/-!
Verification development for `node-ts-fragmenter` (src/src/index.ts), a
low-latency HLS fragmenter for MPEG-TS streams.  The TypeScript source is
shallowly embedded below: buffers become `List Nat` (byte lists), JS numbers
used as integers become `Nat`/`Int`, JS numbers used as seconds become `ℚ`,
nullable fields become `Option`, and completion callbacks are identified by
`Nat` ids (firing a callback = emitting its id into a log).
-/

/-! Exact rational arithmetic, written over the reducible `Rat.divInt`
primitive so that every state of the machine evaluates inside the kernel
(the library's `Rat.add`/`Rat.mul` are `@[irreducible]`); `qadd_eq` and
`qmul_eq` below identify them with the field operations on `ℚ`. -/

/-- Exact rational addition (equals `a + b`, see `qadd_eq`). -/
def qadd (a b : ℚ) : ℚ :=
  Rat.divInt (a.num * (b.den : ℤ) + b.num * (a.den : ℤ)) ((a.den : ℤ) * (b.den : ℤ))

/-- Exact rational multiplication (equals `a * b`, see `qmul_eq`). -/
def qmul (a b : ℚ) : ℚ :=
  Rat.divInt (a.num * b.num) ((a.den : ℤ) * (b.den : ℤ))

/-- One partial segment (class `PartialSegment`, index.ts lines 9-65).
`completed` is the sealed buffer, `retains` the pending byte chunks,
`complete_callbacks` the ordered registered callback ids. -/
structure PartialSegment where
  beginPTS : Nat
  endPTS : Option Nat
  hasIFrame : Bool
  completed : List Nat
  retains : List (List Nat)
  complete_callbacks : List Nat
deriving DecidableEq, Repr

/-- Constructor `PartialSegment(beginPTS, hasIFrame)`; the TS default
`hasIFrame ?? false` is applied by callers that omit the argument. -/
def PartialSegment.new (beginPTS : Nat) (hasIFrame : Bool) : PartialSegment :=
  { beginPTS := beginPTS
    endPTS := none
    hasIFrame := hasIFrame
    completed := []
    retains := []
    complete_callbacks := [] }

/-- `addPacket(packet)`: push the chunk onto `retains`. -/
def PartialSegment.addPacket (packet : List Nat) (s : PartialSegment) : PartialSegment :=
  { s with retains := s.retains ++ [packet] }

/-- `addCallback(cb)`: push the callback onto `complete_callbacks`. -/
def PartialSegment.addCallback (cb : Nat) (s : PartialSegment) : PartialSegment :=
  { s with complete_callbacks := s.complete_callbacks ++ [cb] }

/-- `isCompleted()`: `endPTS != null`. -/
def PartialSegment.isCompleted (s : PartialSegment) : Bool :=
  s.endPTS.isSome

/-- `complete(endPTS)`: set the end PTS, concatenate `retains` into
`completed`, fire every registered callback in order (returned as the second
component) and clear the callback list. -/
def PartialSegment.complete (endPTS : Nat) (s : PartialSegment) :
    PartialSegment × List Nat :=
  ({ s with
      endPTS := some endPTS
      completed := s.completed ++ s.retains.flatten
      retains := []
      complete_callbacks := [] },
   s.complete_callbacks)

/-- `getBuffer()`: the sealed buffer. -/
def PartialSegment.getBuffer (s : PartialSegment) : List Nat :=
  s.completed

/-- `getSeconds()`: `null` while open, else
`(endPTS - beginPTS + 2**33) % 2**33 / 90000` (JS number arithmetic on
integral values, modelled exactly over `ℤ`/`ℚ`). -/
def PartialSegment.getSeconds (s : PartialSegment) : Option ℚ :=
  s.endPTS.map (fun (e : Nat) =>
    Rat.divInt (((e : ℤ) - (s.beginPTS : ℤ) + 2 ^ 33) % 2 ^ 33) 90000)

/-- `estimateSeconds(endPTS)`: same formula for a prospective end PTS. -/
def PartialSegment.estimateSeconds (endPTS : Nat) (s : PartialSegment) : ℚ :=
  Rat.divInt ((((endPTS : ℤ) - (s.beginPTS : ℤ) + 2 ^ 33) % 2 ^ 33)) 90000

/-- `getHasIFrame()`. -/
def PartialSegment.getHasIFrame (s : PartialSegment) : Bool :=
  s.hasIFrame

/-- A media segment (class `Segment extends PartialSegment`, lines 67-112).
Inheritance is embedded as composition: `seg` is the inherited
`PartialSegment` state (the aggregate buffer/PTS view), `parts` the list of
partials. -/
structure Segment where
  seg : PartialSegment
  parts : List PartialSegment
  programDateTime : String
deriving DecidableEq, Repr

/-- `newPartial(beginPTS, hasIFrame)`: push a fresh partial. -/
def Segment.newPartial (beginPTS : Nat) (hasIFrame : Bool) (s : Segment) : Segment :=
  { s with parts := s.parts ++ [PartialSegment.new beginPTS hasIFrame] }

/-- Constructor `Segment(beginPTS, hasIFrame)`: initialise the inherited
partial state, push the first partial, and stamp the creation wall-clock
time.  The `new Date().toISOString()` stamp is external real time; the
embedding takes it as the argument `pdt`. -/
def Segment.new (beginPTS : Nat) (hasIFrame : Bool) (pdt : String) : Segment :=
  Segment.newPartial beginPTS hasIFrame
    { seg := PartialSegment.new beginPTS hasIFrame
      parts := []
      programDateTime := pdt }

/-- `completePartial(endPTS)`: seal the last partial (no-op when `parts` is
empty); fired callback ids are returned alongside. -/
def Segment.completePartial (endPTS : Nat) (s : Segment) : Segment × List Nat :=
  match s.parts.getLast? with
  | none => (s, [])
  | some lastPart =>
      let r := lastPart.complete endPTS
      ({ s with parts := s.parts.dropLast ++ [r.1] }, r.2)

/-- `complete(endPTS)` (override): seal the aggregate (`super.complete`),
then seal the last partial. -/
def Segment.complete (endPTS : Nat) (s : Segment) : Segment × List Nat :=
  let r1 := s.seg.complete endPTS
  let r2 := Segment.completePartial endPTS { s with seg := r1.1 }
  (r2.1, r1.2 ++ r2.2)

/-- Modify the last element of a list (helper for the `parts[length-1]`
mutations in the source; the JS code would throw on an empty list, which is
unreachable since the constructor always pushes one partial). -/
def List.modifyLastElem (f : α → α) : List α → List α
  | [] => []
  | [x] => [f x]
  | x :: y :: rest => x :: List.modifyLastElem f (y :: rest)

/-- `addPacket(packet)` (override): append to the aggregate and to the last
partial. -/
def Segment.addPacket (packet : List Nat) (s : Segment) : Segment :=
  { s with
      seg := s.seg.addPacket packet
      parts := List.modifyLastElem (PartialSegment.addPacket packet) s.parts }

/-- `getLength()`. -/
def Segment.getLength (s : Segment) : Nat :=
  s.parts.length

/-- `getPartial(index)`: `undefined` out of bounds becomes `none`. -/
def Segment.getPartial (index : Nat) (s : Segment) : Option PartialSegment :=
  s.parts.get? index

/-- `getProgramDateTime()`. -/
def Segment.getProgramDateTime (s : Segment) : String :=
  s.programDateTime

/-- Inherited `isCompleted()`. -/
def Segment.isCompleted (s : Segment) : Bool :=
  s.seg.isCompleted

/-- Inherited `getBuffer()`. -/
def Segment.getBuffer (s : Segment) : List Nat :=
  s.seg.getBuffer

/-- Inherited `getSeconds()`. -/
def Segment.getSeconds (s : Segment) : Option ℚ :=
  s.seg.getSeconds

/-- Inherited `addCallback(cb)`. -/
def Segment.addCallback (cb : Nat) (s : Segment) : Segment :=
  { s with seg := s.seg.addCallback cb }

/-! ## External parsing library constants and section access

The TS/PSI/PES framing library (`arib-mpeg2ts-parser`) is an external
collaborator of this repository (spec §6); only the constants and accessors
the fragmenter reads from it are needed here. -/

/-- Modelled from the spec: `TSSection.BASIC_HEADER_SIZE` of the external
section library — the 3-byte basic PSI section header (table id + the two
section-length bytes). -/
def TSSection.BASIC_HEADER_SIZE : Nat := 3

/-- Modelled from the spec: `TSSection.EXTENDED_HEADER_SIZE` of the external
section library — 8 bytes up to and including the last-section-number field,
where the PAT program loop / PMT fixed fields begin. -/
def TSSection.EXTENDED_HEADER_SIZE : Nat := 8

/-- Modelled from the spec: `TSSection.CRC_SIZE` of the external section
library — the trailing 4-byte CRC32. -/
def TSSection.CRC_SIZE : Nat := 4

/-- Modelled from the spec: `TSSection.section_length(section)` of the
external section library — the 12-bit length field in bytes 1-2. -/
def TSSection.section_length (s : List Nat) : Nat :=
  ((s.getD 1 0 &&& 0x0F) <<< 8) ||| s.getD 2 0

/-- Modelled from the spec: `TSPES.PES_HEADER_SIZE` of the external PES
library — the 6-byte PES start (start-code prefix + stream id + packet
length); the PTS then sits at offset `PES_HEADER_SIZE + 3`. -/
def TSPES.PES_HEADER_SIZE : Nat := 6

/-! ## PAT / PMT / PES field extraction (embedded from `_write`) -/

/-- The program number the PAT scan reads at offset `b` (line 394). -/
def patEntryPN (PAT : List Nat) (b : Nat) : Nat :=
  (PAT.getD (b + 0) 0 <<< 8) ||| PAT.getD (b + 1) 0

/-- The program map PID the PAT scan reads at offset `b` (line 395). -/
def patEntryPID (PAT : List Nat) (b : Nat) : Nat :=
  ((PAT.getD (b + 2) 0 &&& 0x1F) <<< 8) ||| PAT.getD (b + 3) 0

/-- Fuel-indexed form of the PAT program-loop scan: structural recursion so
that the function reduces inside the kernel.  `stop - b` fuel always
suffices since each iteration advances `b` by 4. -/
def patLoopF (sid : Option Nat) (PAT : List Nat) (stop : Nat) :
    Nat → Nat → Option Nat → Option Nat
  | 0, _, acc => acc
  | fuel + 1, b, acc =>
      if b < stop then
        let program_number := patEntryPN PAT b
        let program_map_PID := patEntryPID PAT b
        if program_map_PID = 0x10 then
          patLoopF sid PAT stop fuel (b + 4) acc
        else
          let acc' :=
            if sid = some program_number then some program_map_PID
            else if sid = none ∧ acc = none then some program_map_PID
            else acc
          patLoopF sid PAT stop fuel (b + 4) acc'
      else acc

/-- PAT program-loop scan (index.ts lines 392-405).  `sid` is
`PAT_TargetSID`, `acc` the current `PAT_TargetPMTPid`;
entries whose `program_map_PID` is `0x10` (NIT) are skipped. -/
def patLoop (sid : Option Nat) (acc : Option Nat) (PAT : List Nat)
    (b stop : Nat) : Option Nat :=
  patLoopF sid PAT stop (stop - b) b acc

/-- Fuel-indexed form of the PMT elementary-stream loop (structural
recursion; `stop - b` fuel always suffices since each iteration advances
`b` by at least 5). -/
def pmtLoopF (PMT : List Nat) (stop : Nat) :
    Nat → Nat → Option Nat → Option Nat
  | 0, _, acc => acc
  | fuel + 1, b, acc =>
      if b < stop then
        let stream_type := PMT.getD (b + 0) 0
        let elementary_PID := ((PMT.getD (b + 1) 0 &&& 0x1F) <<< 8) ||| PMT.getD (b + 2) 0
        let ES_info_length := ((PMT.getD (b + 3) 0 &&& 0x0F) <<< 8) ||| PMT.getD (b + 4) 0
        let acc' :=
          if acc = none ∧ stream_type = 0x1b then some elementary_PID else acc
        pmtLoopF PMT stop fuel (b + 5 + ES_info_length) acc'
      else acc

/-- PMT elementary-stream loop (index.ts lines 430-441). `acc` is the
current `PMT_VideoPid`; the first entry of stream type `0x1b` (AVC video)
binds it. -/
def pmtLoop (acc : Option Nat) (PMT : List Nat) (b stop : Nat) : Option Nat :=
  pmtLoopF PMT stop (stop - b) b acc

/-- PTS extraction from a video PES payload (index.ts lines 458-463): the
5-byte packed 33-bit PTS in 3/8/7/8/7-bit groups at offset
`PES_HEADER_SIZE + 3`. -/
def parsePTS (v : List Nat) : Nat :=
  let pts0 := 0
  let pts1 := pts0 * (1 <<< 3) + ((v.getD (TSPES.PES_HEADER_SIZE + 3 + 0) 0 &&& 0x0E) >>> 1)
  let pts2 := pts1 * (1 <<< 8) + ((v.getD (TSPES.PES_HEADER_SIZE + 3 + 1) 0 &&& 0xFF) >>> 0)
  let pts3 := pts2 * (1 <<< 7) + ((v.getD (TSPES.PES_HEADER_SIZE + 3 + 2) 0 &&& 0xFE) >>> 1)
  let pts4 := pts3 * (1 <<< 8) + ((v.getD (TSPES.PES_HEADER_SIZE + 3 + 3) 0 &&& 0xFF) >>> 0)
  pts4 * (1 <<< 7) + ((v.getD (TSPES.PES_HEADER_SIZE + 3 + 4) 0 &&& 0xFE) >>> 1)

/-- Fuel-indexed form of the Annex-B IDR scan (structural recursion;
`v.length - b` fuel always suffices since each iteration advances `b`). -/
def findIDRF (v : List Nat) : Nat → Nat → Bool
  | 0, _ => false
  | fuel + 1, b =>
      if b < v.length then
        if b + 2 ≥ v.length then false
        else if v.getD (b + 0) 0 ≠ 0 then findIDRF v fuel (b + 1)
        else if v.getD (b + 1) 0 ≠ 0 then findIDRF v fuel (b + 1)
        else if v.getD (b + 2) 0 ≠ 1 then findIDRF v fuel (b + 1)
        else if b + 3 ≥ v.length then false
        else if (v.getD (b + 3) 0 &&& 0x1f) = 5 then true
        else findIDRF v fuel (b + 4)
      else false

/-- Annex-B start-code scan for an IDR NAL (index.ts lines 469-484):
stop at the first NAL of type 5, or at buffer end. -/
def findIDR (v : List Nat) (b : Nat) : Bool :=
  findIDRF v (v.length - b) b

/-- The elementary-stream scan offset used by `_write` (line 469):
`PES_HEADER_SIZE + 2 + PES_header_data_length`. -/
def esScanStart (v : List Nat) : Nat :=
  TSPES.PES_HEADER_SIZE + 2 + v.getD (TSPES.PES_HEADER_SIZE + 2) 0

/-! ## The fragmenter state machine -/

/-- Constructor options (`TSFragmenterOptions`, lines 114-117): the stream
`WritableOptions` carry no fragmenter state and are omitted.  Note the type
has exactly two fragmenter fields — window `length` and `partTarget`. -/
structure TSFragmenterOptions where
  length : Option Nat := none
  partTarget : Option ℚ := none
deriving DecidableEq, Repr

/-- One framed 188-byte TS packet as handed over by the external Packet
Framer, together with the outcome of the external per-packet/section
processing that the fragmenter consumes.  Modelled from the spec (§6):
`pid` is `TSPacket.pid(packet)`; `tei`/`tp`/`tsc` the three header fields
the fragmenter caches; `bytes` the raw packet bytes; `payload` the complete
section / PES payload the external Section or PES Assembler yields after
this packet (the embedding takes the assemblers at their contract — one
complete payload per packet — since their reassembly internals are out of
scope); `crcOK` the outcome of the external `TSSection.CRC32` check on that
payload. -/
structure TSPacketIn where
  pid : Nat
  tei : Bool := false
  tp : Bool := false
  tsc : Nat := 0
  bytes : List Nat := []
  payload : List Nat := []
  crcOK : Bool := true
deriving DecidableEq, Repr

/-- The fragmenter state (class `TSFragmenter`, lines 119-155).  The three
external queue objects hold no observable state under the one-payload-per-
packet assembler model and are omitted. -/
structure TSFragmenter where
  Packet_TransportErrorIndicator : Bool := false
  Packet_TransportPriority : Bool := false
  Packet_TransportScramblingControl : Nat := 0
  PAT_lastPAT : Option (List Nat) := none
  PAT_Continuous_Counter : Nat := 0
  PAT_TargetSID : Option Nat := none
  PAT_TargetPMTPid : Option Nat := none
  PMT_lastPMT : Option (List Nat) := none
  PMT_Continuous_Counter : Nat := 0
  PMT_VideoPid : Option Nat := none
  PMT_PCRPid : Option Nat := none
  Video_Packets : List (List Nat) := []
  M3U8_Segments_Length : Nat := 3
  M3U8_Part_Target : ℚ := 1
  M3U8_Begin_Sequence_Number : Nat := 0
  M3U8_End_Sequence_Number : Nat := 0
  M3U8_Segments : List Segment := []
  M3U8_Initial_PAT_Detected : Bool := false
  M3U8_Initial_PMT_Detected : Bool := false
  M3U8_Initial_IDR_Detected : Bool := false
deriving DecidableEq, Repr

/-- The constructor (lines 151-155): `options?.length ?? 3` and
`options?.partTarget ?? 1`.  Every other field keeps its initializer — in
particular `PAT_TargetSID` stays `null`: the options type offers no way to
set it. -/
def TSFragmenter.new (options : TSFragmenterOptions) : TSFragmenter :=
  { M3U8_Segments_Length := options.length.getD 3
    M3U8_Part_Target := options.partTarget.getD 1 }

/-- Modelled from the spec: `TSSectionPacketizer.packetize` of the external
section library re-serializes a PSI section into ordered TS packets.  The
packet-level framing is out of scope; the model returns one packet carrying
the section, which is all the fragmenter observes (a byte chunk appended to
the current segment, and the packet count advancing the counter). -/
def TSSectionPacketizer.packetize (sec : List Nat) (_tei _tp : Bool)
    (_pid _tsc _cc : Nat) : List (List Nat) :=
  [sec]

/-- `M3U8_Add_Packet(packet)` (lines 293-299): append to the last segment of
a non-empty window. -/
def TSFragmenter.M3U8_Add_Packet (packet : List Nat) (s : TSFragmenter) : TSFragmenter :=
  let size := s.M3U8_End_Sequence_Number - s.M3U8_Begin_Sequence_Number
  if size = 0 then s
  else
    match s.M3U8_Segments.get? (size - 1) with
    | none => s
    | some lastSegment =>
        { s with M3U8_Segments :=
            s.M3U8_Segments.set (size - 1) (lastSegment.addPacket packet) }

/-- `M3U8_Add_PAT(PAT)` (lines 263-275): re-serialize the cached PAT on PID
0 and append the resulting packets. -/
def TSFragmenter.M3U8_Add_PAT (PAT : List Nat) (s : TSFragmenter) : TSFragmenter :=
  let packets := TSSectionPacketizer.packetize PAT
    s.Packet_TransportErrorIndicator s.Packet_TransportPriority 0
    s.Packet_TransportScramblingControl s.PAT_Continuous_Counter
  let s := { s with PAT_Continuous_Counter :=
    (s.PAT_Continuous_Counter + packets.length) &&& 0x0F }
  packets.foldl (fun st p => st.M3U8_Add_Packet p) s

/-- `M3U8_Add_PMT(PMT)` (lines 277-291): skipped when `PAT_TargetPMTPid` is
falsy (JS `!x`: both `null` and PID `0`). -/
def TSFragmenter.M3U8_Add_PMT (PMT : List Nat) (s : TSFragmenter) : TSFragmenter :=
  if s.PAT_TargetPMTPid = none ∨ s.PAT_TargetPMTPid = some 0 then s
  else
    let packets := TSSectionPacketizer.packetize PMT
      s.Packet_TransportErrorIndicator s.Packet_TransportPriority
      (s.PAT_TargetPMTPid.getD 0) s.Packet_TransportScramblingControl
      s.PMT_Continuous_Counter
    let s := { s with PMT_Continuous_Counter :=
      (s.PMT_Continuous_Counter + packets.length) &&& 0x0F }
    packets.foldl (fun st p => st.M3U8_Add_Packet p) s

/-- `M3U8_Get_Last_Partial()` (lines 320-329). -/
def TSFragmenter.M3U8_Get_Last_Partial (s : TSFragmenter) : Option PartialSegment :=
  let size := s.M3U8_End_Sequence_Number - s.M3U8_Begin_Sequence_Number
  if size = 0 then none
  else
    match s.M3U8_Segments.get? (size - 1) with
    | none => none
    | some lastSegment => lastSegment.getPartial (lastSegment.getLength - 1)

/-- `M3U8_New_Partial(beginPTS)` (lines 331-338): seal the open partial of
the last segment and open a fresh one (fired callback ids are dispatched
synchronously and do not feed back into the state). -/
def TSFragmenter.M3U8_New_Partial (beginPTS : Nat) (s : TSFragmenter) : TSFragmenter :=
  let size := s.M3U8_End_Sequence_Number - s.M3U8_Begin_Sequence_Number
  if size = 0 then s
  else
    match s.M3U8_Segments.get? (size - 1) with
    | none => s
    | some lastSegment =>
        let seg1 := (lastSegment.completePartial beginPTS).1
        let seg2 := seg1.newPartial beginPTS false
        { s with M3U8_Segments := s.M3U8_Segments.set (size - 1) seg2 }

/-- The wall-clock stamp for newly created segments.  The source calls
`new Date().toISOString()`; the embedding fixes the external clock (no claim
inspects the stamp). -/
def defaultPDT : String := "1970-01-01T00:00:00.000Z"

/-- `M3U8_New_Segment(beginPTS)` (lines 340-369): abort without cached
PAT/PMT; seal the current last segment; push a fresh segment and advance the
end MSN; evict the oldest segment when the window exceeds its configured
length, advancing the begin MSN; finally re-emit the cached PAT and PMT into
the new segment. -/
def TSFragmenter.M3U8_New_Segment (beginPTS : Nat) (s : TSFragmenter) : TSFragmenter :=
  match s.PAT_lastPAT, s.PMT_lastPMT with
  | some lastPAT, some lastPMT =>
      let s :=
        let size := s.M3U8_End_Sequence_Number - s.M3U8_Begin_Sequence_Number
        if size = 0 then s
        else
          match s.M3U8_Segments.get? (size - 1) with
          | none => s
          | some lastSegment =>
              { s with M3U8_Segments :=
                  s.M3U8_Segments.set (size - 1) (lastSegment.complete beginPTS).1 }
      let s := { s with
        M3U8_Segments := s.M3U8_Segments ++ [Segment.new beginPTS true defaultPDT]
        M3U8_End_Sequence_Number := s.M3U8_End_Sequence_Number + 1 }
      let s :=
        let size := s.M3U8_End_Sequence_Number - s.M3U8_Begin_Sequence_Number
        if size > s.M3U8_Segments_Length then
          { s with
              M3U8_Segments := s.M3U8_Segments.tail
              M3U8_Begin_Sequence_Number := s.M3U8_Begin_Sequence_Number + 1 }
        else s
      (s.M3U8_Add_PAT lastPAT).M3U8_Add_PMT lastPMT
  | _, _ => s

/-- Processing of one checksum-valid PAT section (lines 389-413): cache it,
reset the PMT-PID binding, scan the program loop, latch the PAT-detected
flag, and re-emit once live. -/
def TSFragmenter.processPATSection (PAT : List Nat) (s : TSFragmenter) : TSFragmenter :=
  let s := { s with PAT_lastPAT := some PAT, PAT_TargetPMTPid := none }
  let stop := TSSection.BASIC_HEADER_SIZE + TSSection.section_length PAT -
    TSSection.CRC_SIZE
  let scanned := patLoop s.PAT_TargetSID s.PAT_TargetPMTPid PAT
    TSSection.EXTENDED_HEADER_SIZE stop
  let s := { s with PAT_TargetPMTPid := scanned }
  let s := { s with M3U8_Initial_PAT_Detected := true }
  if s.M3U8_Initial_IDR_Detected then s.M3U8_Add_PAT PAT else s

/-- Processing of one checksum-valid PMT section on the bound PMT PID
(lines 419-449): cache it, rebind the PCR PID and the video PID, latch the
PMT-detected flag, and re-emit once live. -/
def TSFragmenter.processPMTSection (PMT : List Nat) (s : TSFragmenter) : TSFragmenter :=
  let s := { s with PMT_lastPMT := some PMT, PMT_VideoPid := none }
  let PCR_PID := ((PMT.getD (TSSection.EXTENDED_HEADER_SIZE + 0) 0 &&& 0x1F) <<< 8) |||
    PMT.getD (TSSection.EXTENDED_HEADER_SIZE + 1) 0
  let s := { s with PMT_PCRPid := some PCR_PID }
  let program_info_length :=
    ((PMT.getD (TSSection.EXTENDED_HEADER_SIZE + 2) 0 &&& 0x0F) <<< 8) |||
      PMT.getD (TSSection.EXTENDED_HEADER_SIZE + 3) 0
  let stop := TSSection.BASIC_HEADER_SIZE + TSSection.section_length PMT -
    TSSection.CRC_SIZE
  let scanned := pmtLoop s.PMT_VideoPid PMT
    (TSSection.EXTENDED_HEADER_SIZE + 4 + program_info_length) stop
  let s := { s with PMT_VideoPid := scanned }
  let s := { s with M3U8_Initial_PMT_Detected := true }
  if s.M3U8_Initial_IDR_Detected then s.M3U8_Add_PMT PMT else s

/-- Processing of one complete video PES payload (lines 456-508): extract
the PTS and the IDR flag; on IDR latch liveness and run new-segment; while
live run the part-cut heuristic on non-IDR access units and flush the
buffered video packets of this access unit into the current segment. -/
def TSFragmenter.processVideoPES (VideoPES : List Nat) (s : TSFragmenter) : TSFragmenter :=
  let pts := parsePTS VideoPES
  let hasIDR := findIDR VideoPES (esScanStart VideoPES)
  let s :=
    if hasIDR then
      TSFragmenter.M3U8_New_Segment pts { s with M3U8_Initial_IDR_Detected := true }
    else s
  if s.M3U8_Initial_IDR_Detected then
    let s :=
      if ¬hasIDR then
        match s.M3U8_Get_Last_Partial with
        | some part =>
            let time := part.estimateSeconds pts
            if qmul s.M3U8_Part_Target (Rat.divInt 85 100) < time ∧
                time ≤ s.M3U8_Part_Target then
              s.M3U8_New_Partial pts
            else s
        | none => s
      else s
    let s := s.Video_Packets.foldl (fun st p => st.M3U8_Add_Packet p) s
    { s with Video_Packets := [] }
  else s

/-- The per-packet body of `_write` (lines 374-523): cache the transport
header fields, then dispatch on the PID against the current bindings.  The
external assemblers are taken at their contract (one complete payload per
packet, carried in `pkt.payload`; `pkt.crcOK` is the external CRC32
verdict).  The PCR branch parses the PCR without using it. -/
def TSFragmenter.stepPacket (s : TSFragmenter) (pkt : TSPacketIn) : TSFragmenter :=
  let s := { s with
    Packet_TransportErrorIndicator := pkt.tei
    Packet_TransportPriority := pkt.tp
    Packet_TransportScramblingControl := pkt.tsc }
  if pkt.pid = 0x00 then
    if pkt.crcOK then s.processPATSection pkt.payload else s
  else if s.PAT_TargetPMTPid = some pkt.pid then
    if pkt.crcOK then s.processPMTSection pkt.payload else s
  else if s.PMT_VideoPid = some pkt.pid then
    let s := { s with Video_Packets := s.Video_Packets ++ [pkt.bytes] }
    s.processVideoPES pkt.payload
  else if s.PMT_PCRPid = some pkt.pid then
    if s.M3U8_Initial_IDR_Detected then s.M3U8_Add_Packet pkt.bytes else s
  else
    if s.M3U8_Initial_IDR_Detected then s.M3U8_Add_Packet pkt.bytes else s

/-- A whole ingestion run: the fragmenter constructed from `options` fed a
stream of framed packets in order. -/
def TSFragmenter.run (options : TSFragmenterOptions) (packets : List TSPacketIn) :
    TSFragmenter :=
  packets.foldl TSFragmenter.stepPacket (TSFragmenter.new options)

/-! ## Consumer-facing query surface (lines 206-261, 301-318) -/

/-- `inRangeSegment(msn)`: `begin ≤ msn < end`. -/
def TSFragmenter.inRangeSegment (msn : Nat) (s : TSFragmenter) : Bool :=
  if msn < s.M3U8_Begin_Sequence_Number then false
  else if s.M3U8_End_Sequence_Number ≤ msn then false
  else true

/-- `M3U8_Get_Segment(msn)`. -/
def TSFragmenter.M3U8_Get_Segment (msn : Nat) (s : TSFragmenter) : Option Segment :=
  if s.inRangeSegment msn then
    s.M3U8_Segments.get? (msn - s.M3U8_Begin_Sequence_Number)
  else none

/-- `isFulfilledSegment(msn)`: vacuously true out of range. -/
def TSFragmenter.isFulfilledSegment (msn : Nat) (s : TSFragmenter) : Bool :=
  match s.M3U8_Get_Segment msn with
  | none => true
  | some segment => segment.isCompleted

/-- `getSegment(msn)`: empty out of range. -/
def TSFragmenter.getSegment (msn : Nat) (s : TSFragmenter) : List Nat :=
  match s.M3U8_Get_Segment msn with
  | none => []
  | some segment => segment.getBuffer

/-- `addSegmentCallback(msn, cb)`: false (and no registration) out of
range. -/
def TSFragmenter.addSegmentCallback (msn cb : Nat) (s : TSFragmenter) :
    Bool × TSFragmenter :=
  match s.M3U8_Get_Segment msn with
  | none => (false, s)
  | some segment =>
      let segs := s.M3U8_Segments.set (msn - s.M3U8_Begin_Sequence_Number)
        (segment.addCallback cb)
      (true, { s with M3U8_Segments := segs })

/-- `inRangePartial(msn, part)`. -/
def TSFragmenter.inRangePartial (msn part : Nat) (s : TSFragmenter) : Bool :=
  if ¬s.inRangeSegment msn then false
  else
    match s.M3U8_Segments.get? (msn - s.M3U8_Begin_Sequence_Number) with
    | none => false
    | some segment => (segment.getPartial part).isSome

/-- `M3U8_Get_Partial(msn, part)`. -/
def TSFragmenter.M3U8_Get_Partial (msn part : Nat) (s : TSFragmenter) :
    Option PartialSegment :=
  if s.inRangePartial msn part then
    match s.M3U8_Segments.get? (msn - s.M3U8_Begin_Sequence_Number) with
    | none => none
    | some segment => segment.getPartial part
  else none

/-- `isFulfilledPartial(msn, part)`: vacuously true out of range. -/
def TSFragmenter.isFulfilledPartial (msn part : Nat) (s : TSFragmenter) : Bool :=
  match s.M3U8_Get_Partial msn part with
  | none => true
  | some pseg => pseg.isCompleted

/-- `getPartial(msn, part)`: empty out of range. -/
def TSFragmenter.getPartial (msn part : Nat) (s : TSFragmenter) : List Nat :=
  match s.M3U8_Get_Partial msn part with
  | none => []
  | some pseg => pseg.getBuffer

/-- `addPartialCallback(msn, part, cb)`: false (and no registration) out of
range. -/
def TSFragmenter.addPartialCallback (msn part cb : Nat) (s : TSFragmenter) :
    Bool × TSFragmenter :=
  match s.M3U8_Get_Partial msn part with
  | none => (false, s)
  | some pseg =>
      let idx := msn - s.M3U8_Begin_Sequence_Number
      match s.M3U8_Segments.get? idx with
      | none => (false, s)
      | some segment =>
          let seg' := { segment with
            parts := segment.parts.set part (pseg.addCallback cb) }
          (true, { s with M3U8_Segments := s.M3U8_Segments.set idx seg' })

/-! ## Playlist renderer (`getManifest`, lines 157-204)

JS `Number.prototype.toFixed(3)` on the (non-negative, decimally short)
duration values arising here rounds the value half-up to three decimals;
`fix3` is that rounding as a rational, `toFixed3` its decimal rendering. -/

/-- The rational value of `Number.parseFloat(q.toFixed(3))` for the
non-negative values arising in the renderer: round half-up at the third
decimal. -/
def fix3 (q : ℚ) : ℚ :=
  Rat.divInt ⌊qadd (qmul q 1000) (Rat.divInt 1 2)⌋ 1000

/-- Left-pad the sub-unit part of a 3-decimal rendering. -/
def pad3 (m : Nat) : String :=
  if m < 10 then "00" ++ toString m
  else if m < 100 then "0" ++ toString m
  else toString m

/-- `q.toFixed(3)` for the non-negative values arising in the renderer. -/
def toFixed3 (q : ℚ) : String :=
  let n := (⌊qadd (qmul q 1000) (Rat.divInt 1 2)⌋ : ℤ).toNat
  toString (n / 1000) ++ "." ++ pad3 (n % 1000)

/-- The preload-hint line the renderer emits for an open partial
(line 179).  Note the URI query key `part.ts=`. -/
def preloadHintLine (msn p : Nat) (independent : Bool) : String :=
  "#EXT-X-PRELOAD-HINT:TYPE=PART,URI=\"part?msn=" ++ toString msn ++
    "&part.ts=" ++ toString p ++ "\"" ++
    (if independent then ",INDEPENDENT=YES" else "") ++ "\n"

/-- The part line the renderer emits for a sealed partial (line 181), with
URI query key `part=`. -/
def partLine (duration : ℚ) (msn p : Nat) (independent : Bool) : String :=
  "#EXT-X-PART:DURATION=" ++ toFixed3 duration ++ ",URI=\"part?msn=" ++
    toString msn ++ "&part=" ++ toString p ++ "\"" ++
    (if independent then ",INDEPENDENT=YES" else "") ++ "\n"

/-- The inner per-partial loop of `getManifest` (lines 173-184): emit a
preload hint for each open partial and a part line (accumulating the
3-decimal duration into `extinf`) for each sealed one. -/
def partLinesAcc (msn : Nat) (parts : List PartialSegment) (p : Nat) :
    String × ℚ :=
  match parts with
  | [] => ("", 0)
  | part :: rest =>
      let tail := partLinesAcc msn rest (p + 1)
      if ¬part.isCompleted then
        (preloadHintLine msn p part.getHasIFrame ++ tail.1, tail.2)
      else
        let d := (part.getSeconds).getD 0
        (partLine d msn p part.getHasIFrame ++ tail.1, qadd (fix3 d) tail.2)

/-- The per-segment block of `getManifest` (lines 171-189): blank line,
program-date-time, partial lines, and — only for a sealed segment — the
`EXTINF` aggregate-duration line and the whole-segment fetch reference. -/
def segmentBlock (msn : Nat) (segment : Segment) : String :=
  let inner := partLinesAcc msn segment.parts 0
  "\n" ++ "#EXT-X-PROGRAM-DATE-TIME:" ++ segment.getProgramDateTime ++ "\n" ++
    inner.1 ++
    (if segment.isCompleted then
      "#EXTINF:" ++ toFixed3 inner.2 ++ "\n" ++
        "segment?msn=" ++ toString msn ++ "\n"
    else "")

/-- `getTargetDuration()` (lines 195-204): ceiling of the maximum sealed
segment duration across the window, floor 1 second. -/
def TSFragmenter.getTargetDuration (s : TSFragmenter) : ℤ :=
  let max := s.M3U8_Segments.foldl
    (fun m segment => Max.max m ((segment.getSeconds).getD 0)) (1 : ℚ)
  ⌈max⌉

/-- `getManifest()` (lines 157-193). -/
def TSFragmenter.getManifest (s : TSFragmenter) : String :=
  let header :=
    "#EXTM3U\n" ++
    "#EXT-X-VERSION:6\n" ++
    "#EXT-X-TARGETDURATION:" ++ toString s.getTargetDuration ++ "\n" ++
    "#EXT-X-PART-INF:PART-TARGET=" ++ toFixed3 s.M3U8_Part_Target ++ "\n" ++
    "#EXT-X-SERVER-CONTROL:CAN-BLOCK-RELOAD=YES,PART-HOLD-BACK=" ++
      toFixed3 (qmul s.M3U8_Part_Target 3) ++ "\n" ++
    "#EXT-X-MEDIA-SEQUENCE:" ++ toString s.M3U8_Begin_Sequence_Number ++ "\n"
  let size := s.M3U8_End_Sequence_Number - s.M3U8_Begin_Sequence_Number
  (List.range size).foldl
    (fun acc index =>
      match s.M3U8_Segments.get? index with
      | none => acc
      | some segment =>
          acc ++ segmentBlock (s.M3U8_Begin_Sequence_Number + index) segment)
    header

/-! ## Operation traces on one `PartialSegment`

Used to state lifecycle properties: an arbitrary interleaving of the three
mutating operations a partial exposes, with the fired callback ids logged. -/

/-- One mutating operation on a `PartialSegment`. -/
inductive PSOp where
  | addPacket (packet : List Nat)
  | addCallback (cb : Nat)
  | complete (endPTS : Nat)
deriving DecidableEq, Repr

/-- Run one operation, returning the new state and the callback ids fired
by it. -/
def PSOp.apply (s : PartialSegment) : PSOp → PartialSegment × List Nat
  | .addPacket packet => (s.addPacket packet, [])
  | .addCallback cb => (s.addCallback cb, [])
  | .complete endPTS => s.complete endPTS

/-- Run a list of operations in order, concatenating the fired-callback
logs. -/
def runPS (s : PartialSegment) : List PSOp → PartialSegment × List Nat
  | [] => (s, [])
  | op :: rest =>
      let r := PSOp.apply s op
      let r' := runPS r.1 rest
      (r'.1, r.2 ++ r'.2)

/-- The byte chunks appended by a trace, in order. -/
def chunksOf (ops : List PSOp) : List (List Nat) :=
  ops.filterMap (fun op => match op with
    | .addPacket packet => some packet
    | _ => none)

/-- The callback ids registered by a trace, in order. -/
def callbacksOf (ops : List PSOp) : List Nat :=
  ops.filterMap (fun op => match op with
    | .addCallback cb => some cb
    | _ => none)

/-- Whether an operation is a sealing operation. -/
def PSOp.isComplete : PSOp → Bool
  | .complete _ => true
  | _ => false

/-- A trace containing no sealing operation. -/
def completeFree (ops : List PSOp) : Prop :=
  ∀ e, PSOp.complete e ∉ ops

instance (ops : List PSOp) : Decidable (completeFree ops) := by
  have : (ops.all (fun op => !op.isComplete) = true) ↔ completeFree ops := by
    rw [List.all_eq_true]
    constructor
    · intro h e he
      have := h _ he
      simp [PSOp.isComplete] at this
    · intro h op hop
      cases op with
      | complete e => exact absurd hop (h e)
      | addPacket p => rfl
      | addCallback c => rfl
  exact decidable_of_iff _ this

/-! ## Definitions taken from the specification text

These follow the spec's words (not the source) and are compared against the
source-derived definitions in refinement theorems below. -/

/-- Spec wording of the preload-hint line:
`#EXT-X-PRELOAD-HINT:TYPE=PART,URI="part?msn=<n>&part=<p>"[,INDEPENDENT=YES]`
with the same URI query key `part=` as the part line. -/
def specPreloadHintLine (msn p : Nat) (independent : Bool) : String :=
  "#EXT-X-PRELOAD-HINT:TYPE=PART,URI=\"part?msn=" ++ toString msn ++
    "&part=" ++ toString p ++ "\"" ++
    (if independent then ",INDEPENDENT=YES" else "") ++ "\n"

/-- Spec wording of the part line:
`#EXT-X-PART:DURATION=<3dp>,URI="part?msn=<n>&part=<p>"[,INDEPENDENT=YES]`. -/
def specPartLine (duration : ℚ) (msn p : Nat) (independent : Bool) : String :=
  "#EXT-X-PART:DURATION=" ++ toFixed3 duration ++ ",URI=\"part?msn=" ++
    toString msn ++ "&part=" ++ toString p ++ "\"" ++
    (if independent then ",INDEPENDENT=YES" else "") ++ "\n"

/-- The amended preload-hint format actually emitted by the code: the URI
query key is `part.ts=` instead of the part line's `part=`. -/
def amendedPreloadHintLine (msn p : Nat) (independent : Bool) : String :=
  "#EXT-X-PRELOAD-HINT:TYPE=PART,URI=\"part?msn=" ++ toString msn ++
    "&part.ts=" ++ toString p ++ "\"" ++
    (if independent then ",INDEPENDENT=YES" else "") ++ "\n"

/-- Spec wording of the PAT selection policy (§4.1) on the abstract list of
(program number, program map PID) entries: skip entries with PID `0x10`;
with a configured target service id, bind to the matching entry (the last
match when several); with no target, bind to the first qualifying entry. -/
def specSelectPMTPid (sid : Option Nat) (entries : List (Nat × Nat)) : Option Nat :=
  match sid with
  | some t =>
      ((entries.filter (fun e => decide (e.2 ≠ 0x10) && decide (e.1 = t))).getLast?).map
        (fun e => e.2)
  | none =>
      ((entries.filter (fun e => decide (e.2 ≠ 0x10))).head?).map (fun e => e.2)

/-- The byte region of `PAT` from offset `b` encodes the abstract entry
list `entries`, one 4-byte group per entry. -/
def encodesEntries (PAT : List Nat) (b : Nat) (entries : List (Nat × Nat)) : Prop :=
  ∀ j < entries.length,
    patEntryPN PAT (b + 4 * j) = (entries.getD j (0, 0)).1 ∧
    patEntryPID PAT (b + 4 * j) = (entries.getD j (0, 0)).2

instance (PAT : List Nat) (b : Nat) (entries : List (Nat × Nat)) :
    Decidable (encodesEntries PAT b entries) := by
  unfold encodesEntries
  infer_instance

/-! ## Concrete test vectors

Byte-level PAT/PMT sections and video PES payloads used by witnesses and
counterexamples; built to parse through the embedded extraction code. -/

/-- Encode a 33-bit PTS into the 5 packed PES bytes (marker bits set). -/
def encPTS (t : Nat) : List Nat :=
  [(((t >>> 30) &&& 0x07) <<< 1) ||| 0x21,
   (t >>> 22) &&& 0xFF,
   (((t >>> 15) &&& 0x7F) <<< 1) ||| 0x01,
   (t >>> 7) &&& 0xFF,
   ((t &&& 0x7F) <<< 1) ||| 0x01]

/-- A video PES payload with the given PTS and elementary-stream bytes:
6-byte PES start, flag bytes, header-data length 5, the packed PTS, then
the ES data. -/
def mkVideoPES (t : Nat) (es : List Nat) : List Nat :=
  [0x00, 0x00, 0x01, 0xE0, 0x00, 0x00, 0x84, 0xC0, 0x05] ++ encPTS t ++ es

/-- Elementary-stream bytes holding one IDR NAL (type 5). -/
def esIDR : List Nat := [0x00, 0x00, 0x01, 0x65]

/-- Elementary-stream bytes holding one non-IDR slice NAL (type 1). -/
def esNonIDR : List Nat := [0x00, 0x00, 0x01, 0x41]

/-- A PAT section whose program loop holds the given entries (the CRC bytes
are zeroed; CRC validity is the external check `crcOK`). -/
def mkPAT (entries : List (Nat × Nat)) : List Nat :=
  let slen := 5 + 4 * entries.length + 4
  [0x00, 0xB0 ||| (slen >>> 8), slen &&& 0xFF, 0x00, 0x01, 0xC1, 0x00, 0x00] ++
    (entries.map (fun e =>
      [(e.1 >>> 8) &&& 0xFF, e.1 &&& 0xFF,
       ((e.2 >>> 8) &&& 0x1F) ||| 0xE0, e.2 &&& 0xFF])).flatten ++
    [0x00, 0x00, 0x00, 0x00]

/-- A PMT section with the given PCR PID and elementary-stream entries
(stream type, elementary PID); ES-info lengths are zero and the CRC bytes
are zeroed. -/
def mkPMT (pcrPid : Nat) (streams : List (Nat × Nat)) : List Nat :=
  let slen := 5 + 4 + 5 * streams.length + 4
  [0x02, 0xB0 ||| (slen >>> 8), slen &&& 0xFF, 0x00, 0x01, 0xC1, 0x00, 0x00,
   ((pcrPid >>> 8) &&& 0x1F) ||| 0xE0, pcrPid &&& 0xFF, 0xF0, 0x00] ++
    (streams.map (fun e =>
      [e.1, ((e.2 >>> 8) &&& 0x1F) ||| 0xE0, e.2 &&& 0xFF, 0xF0, 0x00])).flatten ++
    [0x00, 0x00, 0x00, 0x00]

/-- The demo PAT: one program (number 1) mapped to PMT PID `0x100`. -/
def demoPAT : List Nat := mkPAT [(1, 0x100)]

/-- The demo PMT: PCR PID `0x1FE`, one AVC video stream on PID `0x101`. -/
def demoPMT : List Nat := mkPMT 0x1FE [(0x1B, 0x101)]

/-- The PAT packet of the demo stream. -/
def pktPAT : TSPacketIn := { pid := 0x00, bytes := [0x47, 0x01], payload := demoPAT }

/-- The PMT packet of the demo stream. -/
def pktPMT : TSPacketIn := { pid := 0x100, bytes := [0x47, 0x02], payload := demoPMT }

/-- A video packet of the demo stream carrying one complete PES payload. -/
def pktVideo (marker t : Nat) (es : List Nat) : TSPacketIn :=
  { pid := 0x101, bytes := [0x47, marker], payload := mkVideoPES t es }

/-- The PTS signature of a segment's partial list: each partial's begin and
end PTS in order.  Appending media bytes never changes it; partial and
segment boundaries do. -/
def partsSig (g : Segment) : List (Nat × Option Nat) :=
  g.parts.map (fun q => (q.beginPTS, q.endPTS))

/-- The PAT program-loop scan lifted to the abstract entry list (one step
per 4-byte group, mirroring `patLoop`'s branches). -/
def listScanPAT (sid : Option Nat) (acc : Option Nat) :
    List (Nat × Nat) → Option Nat
  | [] => acc
  | e :: rest =>
      if e.2 = 0x10 then listScanPAT sid acc rest
      else
        let acc' :=
          if sid = some e.1 then some e.2
          else if sid = none ∧ acc = none then some e.2
          else acc
        listScanPAT sid acc' rest

/-- The window bookkeeping invariant for a configured window length `n`:
the configured length never changes, the stored segment list length is the
end MSN capped at `n`, and the begin MSN trails the end MSN by exactly the
stored length.  (The end MSN counts exactly the segment creations performed
by `M3U8_New_Segment`.) -/
def WindowInv (n : Nat) (s : TSFragmenter) : Prop :=
  s.M3U8_Segments_Length = n ∧
  s.M3U8_Segments.length = min s.M3U8_End_Sequence_Number n ∧
  s.M3U8_Begin_Sequence_Number =
    s.M3U8_End_Sequence_Number - s.M3U8_Segments.length

instance (n : Nat) (s : TSFragmenter) : Decidable (WindowInv n s) := by
  unfold WindowInv
  infer_instance

/-- An open partial has an empty sealed buffer (true of every partial the
fragmenter ever creates: the buffer is only written by sealing). -/
def PartialWF (q : PartialSegment) : Prop :=
  q.endPTS = none → q.completed = []

instance (q : PartialSegment) : Decidable (PartialWF q) := by
  unfold PartialWF
  infer_instance

/-- Wellformedness of a stored segment: the aggregate view and every
partial satisfy `PartialWF`. -/
def SegmentWF (g : Segment) : Prop :=
  PartialWF g.seg ∧ ∀ q ∈ g.parts, PartialWF q

instance (g : Segment) : Decidable (SegmentWF g) := by
  unfold SegmentWF
  infer_instance

/-- Wellformedness of a fragmenter state as seen by the query surface:
consistent window bookkeeping and wellformed stored segments. -/
def QueryWF (s : TSFragmenter) : Prop :=
  s.M3U8_Begin_Sequence_Number ≤ s.M3U8_End_Sequence_Number ∧
  s.M3U8_Segments.length =
    s.M3U8_End_Sequence_Number - s.M3U8_Begin_Sequence_Number ∧
  ∀ g ∈ s.M3U8_Segments, SegmentWF g

instance (s : TSFragmenter) : Decidable (QueryWF s) := by
  unfold QueryWF
  infer_instance

/-- Demo stream reaching `Live`: PAT, PMT, one IDR access unit at PTS 0. -/
def demoLivePackets : List TSPacketIn :=
  [pktPAT, pktPMT, pktVideo 9 0 esIDR]

/-- Demo stream with a pre-Live non-IDR video access unit (marker byte 3)
followed by two IDR access units: the first segment gets sealed. -/
def demoPreRollPackets : List TSPacketIn :=
  [pktPAT, pktPMT, pktVideo 3 0 esNonIDR, pktVideo 4 90000 esIDR,
   pktVideo 5 180000 esIDR]

/-- Demo stream producing a sealed two-part segment whose part durations
(85554 ticks = 0.9506 s each) round up at the third decimal: IDR at 0, part
cut at 85554, IDR at 171108. -/
def demoRoundingPackets : List TSPacketIn :=
  [pktPAT, pktPMT, pktVideo 6 0 esIDR, pktVideo 7 85554 esNonIDR,
   pktVideo 8 171108 esIDR]

/-! ## The exact rational primitives agree with the field operations -/

/-- `qadd` is addition on `ℚ`. -/
theorem qadd_eq (a b : ℚ) : qadd a b = a + b := by
  unfold qadd
  rw [Rat.divInt_eq_div]
  push_cast
  conv_rhs => rw [← Rat.num_div_den a, ← Rat.num_div_den b]
  have ha : ((a.den : ℚ)) ≠ 0 := Nat.cast_ne_zero.mpr (Rat.den_ne_zero a)
  have hb : ((b.den : ℚ)) ≠ 0 := Nat.cast_ne_zero.mpr (Rat.den_ne_zero b)
  field_simp

/-- `qmul` is multiplication on `ℚ`. -/
theorem qmul_eq (a b : ℚ) : qmul a b = a * b := by
  unfold qmul
  rw [Rat.divInt_eq_div]
  push_cast
  conv_rhs => rw [← Rat.num_div_den a, ← Rat.num_div_den b]
  have ha : ((a.den : ℚ)) ≠ 0 := Nat.cast_ne_zero.mpr (Rat.den_ne_zero a)
  have hb : ((b.den : ℚ)) ≠ 0 := Nat.cast_ne_zero.mpr (Rat.den_ne_zero b)
  field_simp

/-! ## Lifecycle lemmas for `PartialSegment` traces -/

/-- A trace is complete-free iff its tail is, and its head is not a seal. -/
theorem completeFree_cons {op : PSOp} {ops : List PSOp} (h : completeFree (op :: ops)) :
    completeFree ops := by
  intro e he
  exact h e (List.mem_cons_of_mem _ he)

/-- Running a complete-free trace only accumulates pending chunks and
callbacks; nothing fires and the sealed buffer is untouched. -/
theorem runPS_completeFree (ops : List PSOp) (s : PartialSegment)
    (h : completeFree ops) :
    runPS s ops =
      ({ s with
          retains := s.retains ++ chunksOf ops
          complete_callbacks := s.complete_callbacks ++ callbacksOf ops }, []) := by
  induction ops generalizing s with
  | nil => simp [runPS, chunksOf, callbacksOf]
  | cons op rest ih =>
      cases op with
      | addPacket packet =>
          rw [runPS, ih _ (completeFree_cons h)]
          simp [PSOp.apply, PartialSegment.addPacket, chunksOf, callbacksOf]
      | addCallback cb =>
          rw [runPS, ih _ (completeFree_cons h)]
          simp [PSOp.apply, PartialSegment.addCallback, chunksOf, callbacksOf]
      | complete e =>
          exact absurd (List.mem_cons_self _ _) (h e)

/-- A callback id that is not pending and never re-registered is never
fired by any further trace, and never becomes pending again. -/
theorem runPS_never_fires (ops : List PSOp) (s : PartialSegment) (c : Nat)
    (hc : c ∉ s.complete_callbacks) (hops : PSOp.addCallback c ∉ ops) :
    (runPS s ops).2.count c = 0 ∧ c ∉ (runPS s ops).1.complete_callbacks := by
  induction ops generalizing s with
  | nil => simpa [runPS] using hc
  | cons op rest ih =>
      have hop : op ≠ PSOp.addCallback c := by
        intro heq
        exact hops (heq ▸ List.mem_cons_self _ _)
      have hrest : PSOp.addCallback c ∉ rest := by
        intro hmem
        exact hops (List.mem_cons_of_mem _ hmem)
      cases op with
      | addPacket packet =>
          have := ih (s.addPacket packet)
            (by simpa [PartialSegment.addPacket] using hc) hrest
          simpa [runPS, PSOp.apply] using this
      | addCallback cb =>
          have hcb : cb ≠ c := by
            intro heq
            exact hop (by rw [heq])
          have hc' : c ∉ (s.addCallback cb).complete_callbacks := by
            simp only [PartialSegment.addCallback, List.mem_append, List.mem_singleton]
            rintro (h1 | h2)
            · exact hc h1
            · exact hcb h2.symm
          have := ih (s.addCallback cb) hc' hrest
          simpa [runPS, PSOp.apply] using this
      | complete e =>
          have hc' : c ∉ ((s.complete e).1).complete_callbacks := by
            simp [PartialSegment.complete]
          have := ih (s.complete e).1 hc' hrest
          rw [runPS]
          refine ⟨?_, this.2⟩
          simp only [PSOp.apply, List.count_append, this.1]
          have : (s.complete e).2.count c = 0 := by
            simp only [PartialSegment.complete]
            exact List.count_eq_zero.mpr hc
          omega

/-- C2: For every PartialSegment and every sequence of byte chunks appended
to it, fetching its buffer before it is sealed returns the empty byte
sequence; after sealing (with any end PTS) the buffer equals the ordered
concatenation of exactly the chunks appended before sealing (also after
further complete-free operations); sealing fires every callback registered
before sealing exactly once, in registration order, and clears the callback
list. -/
theorem C2_partial_buffer_and_seal (b : Nat) (hif : Bool) (pre post : List PSOp)
    (e : Nat) (hpre : completeFree pre) (hpost : completeFree post) :
    (runPS (PartialSegment.new b hif) pre).1.getBuffer = [] ∧
    ((runPS (PartialSegment.new b hif) pre).1.complete e).1.getBuffer =
      (chunksOf pre).flatten ∧
    ((runPS (PartialSegment.new b hif) pre).1.complete e).2 = callbacksOf pre ∧
    ((runPS (PartialSegment.new b hif) pre).1.complete e).1.complete_callbacks = [] ∧
    (runPS ((runPS (PartialSegment.new b hif) pre).1.complete e).1 post).1.getBuffer =
      (chunksOf pre).flatten := by
  rw [runPS_completeFree pre _ hpre]
  rw [runPS_completeFree post _ hpost]
  simp [PartialSegment.new, PartialSegment.complete, PartialSegment.getBuffer]

/-- Witness for C2 on a concrete trace: two appended chunks, one callback. -/
theorem C2_witness :
    completeFree [PSOp.addPacket [1, 2], PSOp.addCallback 7, PSOp.addPacket [3]] ∧
    completeFree [PSOp.addPacket [9]] ∧
    ((runPS (PartialSegment.new 0 false)
        [PSOp.addPacket [1, 2], PSOp.addCallback 7, PSOp.addPacket [3]]).1.getBuffer = [] ∧
      ((runPS (PartialSegment.new 0 false)
        [PSOp.addPacket [1, 2], PSOp.addCallback 7, PSOp.addPacket [3]]).1.complete 90).1.getBuffer =
        (chunksOf [PSOp.addPacket [1, 2], PSOp.addCallback 7, PSOp.addPacket [3]]).flatten ∧
      ((runPS (PartialSegment.new 0 false)
        [PSOp.addPacket [1, 2], PSOp.addCallback 7, PSOp.addPacket [3]]).1.complete 90).2 =
        callbacksOf [PSOp.addPacket [1, 2], PSOp.addCallback 7, PSOp.addPacket [3]] ∧
      ((runPS (PartialSegment.new 0 false)
        [PSOp.addPacket [1, 2], PSOp.addCallback 7, PSOp.addPacket [3]]).1.complete 90).1.complete_callbacks = [] ∧
      (runPS ((runPS (PartialSegment.new 0 false)
        [PSOp.addPacket [1, 2], PSOp.addCallback 7, PSOp.addPacket [3]]).1.complete 90).1
        [PSOp.addPacket [9]]).1.getBuffer =
        (chunksOf [PSOp.addPacket [1, 2], PSOp.addCallback 7, PSOp.addPacket [3]]).flatten) :=
  ⟨by decide, by decide,
   C2_partial_buffer_and_seal 0 false _ _ 90 (by decide) (by decide)⟩

/-- C10: a callback registered (once) on a still-open partial fires exactly
once, at the moment that partial is sealed, and is never fired again by any
later operations — later seals and registrations of other callbacks
included — as long as the same callback is not registered anew. -/
theorem C10_callback_fires_once (b : Nat) (hif : Bool) (pre : List PSOp) (c e : Nat)
    (hpre : completeFree pre) (hreg : (callbacksOf pre).count c = 1)
    (post : List PSOp) (hpost : PSOp.addCallback c ∉ post) :
    (runPS (PartialSegment.new b hif) pre).1.endPTS = none ∧
    ((runPS (PartialSegment.new b hif) pre).1.complete e).2.count c = 1 ∧
    (runPS ((runPS (PartialSegment.new b hif) pre).1.complete e).1 post).2.count c = 0 := by
  rw [runPS_completeFree pre _ hpre]
  refine ⟨rfl, ?_, ?_⟩
  · simpa [PartialSegment.new, PartialSegment.complete] using hreg
  · exact (runPS_never_fires post _ c
      (by simp [PartialSegment.new, PartialSegment.complete]) hpost).1

/-- Witness for C10: register callback 5 before sealing, then seal again
later with another callback registered — 5 fires exactly once. -/
theorem C10_witness :
    completeFree [PSOp.addCallback 5, PSOp.addPacket [1]] ∧
    (callbacksOf [PSOp.addCallback 5, PSOp.addPacket [1]]).count 5 = 1 ∧
    PSOp.addCallback 5 ∉ [PSOp.addCallback 6, PSOp.complete 200] ∧
    ((runPS (PartialSegment.new 0 true) [PSOp.addCallback 5, PSOp.addPacket [1]]).1.endPTS = none ∧
      ((runPS (PartialSegment.new 0 true) [PSOp.addCallback 5, PSOp.addPacket [1]]).1.complete 100).2.count 5 = 1 ∧
      (runPS ((runPS (PartialSegment.new 0 true) [PSOp.addCallback 5, PSOp.addPacket [1]]).1.complete 100).1
        [PSOp.addCallback 6, PSOp.complete 200]).2.count 5 = 0) :=
  ⟨by decide, by decide, by decide,
   C10_callback_fires_once 0 true _ 5 100 (by decide) (by decide) _ (by decide)⟩

/-- C3: a sealed partial with begin PTS `b` and end PTS `e` in the 33-bit
domain has duration `((e - b + 2^33) mod 2^33) / 90000` seconds, the
wraparound-safe formula (stated over natural-number modular arithmetic;
the embedded `getSeconds` computes the JS integer expression over `ℤ`). -/
theorem C3_duration_wraparound (s : PartialSegment) (e : Nat)
    (hb : s.beginPTS < 2 ^ 33) (he : e < 2 ^ 33) (hes : s.endPTS = some e) :
    s.getSeconds = some ((((e + 2 ^ 33 - s.beginPTS) % 2 ^ 33 : Nat) : ℚ) / 90000) := by
  have h : ((e : ℤ) - (s.beginPTS : ℤ) + 2 ^ 33) % 2 ^ 33 =
      (((e + 2 ^ 33 - s.beginPTS) % 2 ^ 33 : Nat) : ℤ) := by
    omega
  simp only [PartialSegment.getSeconds, hes, Option.map_some', h, Int.cast_natCast,
    Rat.divInt_eq_div]
  norm_num

/-- Witness for C3, the spec's P2 instance: begin PTS `2^33 - 10`, end PTS
`5` gives `15 / 90000` seconds across the wraparound. -/
theorem C3_witness :
    (2 ^ 33 - 10 : Nat) < 2 ^ 33 ∧ (5 : Nat) < 2 ^ 33 ∧
    ({ PartialSegment.new (2 ^ 33 - 10) false with endPTS := some 5 } :
      PartialSegment).getSeconds = some ((15 : ℚ) / 90000) := by
  refine ⟨by norm_num, by norm_num, ?_⟩
  have h := C3_duration_wraparound
    ({ PartialSegment.new (2 ^ 33 - 10) false with endPTS := some 5 }) 5
    (by norm_num [PartialSegment.new]) (by norm_num) rfl
  rw [h]
  norm_num [PartialSegment.new]

/-- C6 counterexample: the preload-hint line the renderer emits uses the URI
query key `part.ts=`, not the part line's `part=` claimed by the spec —
shown at MSN 0, partial index 0. -/
theorem C6_counterexample :
    preloadHintLine 0 0 false ≠ specPreloadHintLine 0 0 false := by
  decide

/-- C6 (amended): sealed partials produce exactly the claimed
`#EXT-X-PART:DURATION=<3dp>,URI="part?msn=<n>&part=<p>"[,INDEPENDENT=YES]`
line, while open partials produce the preload-hint line with query key
`part.ts=` instead of `part=`:
`#EXT-X-PRELOAD-HINT:TYPE=PART,URI="part?msn=<n>&part.ts=<p>"[,INDEPENDENT=YES]`. -/
theorem C6_line_formats (msn p : Nat) (independent : Bool) (d : ℚ) :
    partLine d msn p independent = specPartLine d msn p independent ∧
    preloadHintLine msn p independent = amendedPreloadHintLine msn p independent :=
  ⟨rfl, rfl⟩

/-! ## Structural lemmas about the window mutations -/

/-- Setting an index to the value it already holds is the identity. -/
theorem list_set_same {α : Type _} (l : List α) (i : Nat) (a : α)
    (h : l[i]? = some a) : l.set i a = l := by
  apply List.ext_getElem?
  intro n
  rw [List.getElem?_set]
  by_cases hin : i = n
  · subst hin
    have hlt : i < l.length := by
      by_contra hge
      rw [List.getElem?_eq_none (by omega)] at h
      exact Option.noConfusion h
    simp [hlt, h.symm]
  · simp [hin]

/-- `modifyLastElem` is invisible to any projection the modification
preserves. -/
theorem modifyLastElem_map {α β : Type _} (f : α → α) (proj : α → β)
    (h : ∀ a, proj (f a) = proj a) (l : List α) :
    (List.modifyLastElem f l).map proj = l.map proj := by
  induction l with
  | nil => rfl
  | cons x xs ih =>
      cases xs with
      | nil => simp [List.modifyLastElem, h]
      | cons y ys =>
          simp only [List.modifyLastElem, List.map_cons] at ih ⊢
          rw [ih]

/-- Appending a media chunk to a segment never moves its partial
boundaries. -/
theorem partsSig_addPacket (p : List Nat) (g : Segment) :
    partsSig (g.addPacket p) = partsSig g := by
  unfold partsSig Segment.addPacket
  exact modifyLastElem_map (PartialSegment.addPacket p)
    (fun q => (q.beginPTS, q.endPTS)) (fun a => rfl) g.parts

/-- `M3U8_Add_Packet` only rewrites the stored segment list, and leaves
every partial boundary in it unchanged. -/
theorem M3U8_Add_Packet_spec (p : List Nat) (t : TSFragmenter) :
    ∃ segs, t.M3U8_Add_Packet p = { t with M3U8_Segments := segs } ∧
      segs.map partsSig = t.M3U8_Segments.map partsSig := by
  unfold TSFragmenter.M3U8_Add_Packet
  by_cases h : (t.M3U8_End_Sequence_Number - t.M3U8_Begin_Sequence_Number) = 0
  · exact ⟨t.M3U8_Segments, by simp [h], rfl⟩
  · simp only [if_neg h]
    cases hg : t.M3U8_Segments.get?
        (t.M3U8_End_Sequence_Number - t.M3U8_Begin_Sequence_Number - 1) with
    | none => exact ⟨t.M3U8_Segments, by simp [hg], rfl⟩
    | some g =>
        refine ⟨t.M3U8_Segments.set
          (t.M3U8_End_Sequence_Number - t.M3U8_Begin_Sequence_Number - 1)
          (g.addPacket p), by simp [hg], ?_⟩
        rw [List.map_set, partsSig_addPacket]
        apply list_set_same
        rw [List.getElem?_map]
        rw [List.get?_eq_getElem?] at hg
        rw [hg]
        rfl

/-- Folding `M3U8_Add_Packet` over a chunk list only rewrites the stored
segment list, leaving every partial boundary unchanged. -/
theorem fold_Add_Packet_spec (ps : List (List Nat)) (t : TSFragmenter) :
    ∃ segs, ps.foldl (fun st p => st.M3U8_Add_Packet p) t =
        { t with M3U8_Segments := segs } ∧
      segs.map partsSig = t.M3U8_Segments.map partsSig := by
  induction ps generalizing t with
  | nil => exact ⟨t.M3U8_Segments, rfl, rfl⟩
  | cons p rest ih =>
      obtain ⟨segs1, h1, hm1⟩ := M3U8_Add_Packet_spec p t
      obtain ⟨segs2, h2, hm2⟩ := ih ({ t with M3U8_Segments := segs1 })
      refine ⟨segs2, ?_, ?_⟩
      · simpa [h1] using h2
      · rw [hm2]
        exact hm1

/-- `M3U8_Add_PAT` only advances the PAT continuity counter and rewrites
the stored segment list, leaving every partial boundary unchanged. -/
theorem M3U8_Add_PAT_spec (P : List Nat) (t : TSFragmenter) :
    ∃ segs c, t.M3U8_Add_PAT P =
        { t with PAT_Continuous_Counter := c, M3U8_Segments := segs } ∧
      segs.map partsSig = t.M3U8_Segments.map partsSig := by
  unfold TSFragmenter.M3U8_Add_PAT
  obtain ⟨segs, h, hm⟩ := fold_Add_Packet_spec
    (TSSectionPacketizer.packetize P t.Packet_TransportErrorIndicator
      t.Packet_TransportPriority 0 t.Packet_TransportScramblingControl
      t.PAT_Continuous_Counter)
    ({ t with PAT_Continuous_Counter :=
      (t.PAT_Continuous_Counter + (TSSectionPacketizer.packetize P
        t.Packet_TransportErrorIndicator t.Packet_TransportPriority 0
        t.Packet_TransportScramblingControl t.PAT_Continuous_Counter).length) &&& 0x0F })
  exact ⟨segs, _, h, hm⟩

/-- `M3U8_Add_PMT` only advances the PMT continuity counter and rewrites
the stored segment list, leaving every partial boundary unchanged. -/
theorem M3U8_Add_PMT_spec (P : List Nat) (t : TSFragmenter) :
    ∃ segs c, t.M3U8_Add_PMT P =
        { t with PMT_Continuous_Counter := c, M3U8_Segments := segs } ∧
      segs.map partsSig = t.M3U8_Segments.map partsSig := by
  unfold TSFragmenter.M3U8_Add_PMT
  by_cases h0 : t.PAT_TargetPMTPid = none ∨ t.PAT_TargetPMTPid = some 0
  · exact ⟨t.M3U8_Segments, t.PMT_Continuous_Counter, by simp [h0], rfl⟩
  · simp only [if_neg h0]
    obtain ⟨segs, h, hm⟩ := fold_Add_Packet_spec
      (TSSectionPacketizer.packetize P t.Packet_TransportErrorIndicator
        t.Packet_TransportPriority (t.PAT_TargetPMTPid.getD 0)
        t.Packet_TransportScramblingControl t.PMT_Continuous_Counter)
      ({ t with PMT_Continuous_Counter :=
        (t.PMT_Continuous_Counter + (TSSectionPacketizer.packetize P
          t.Packet_TransportErrorIndicator t.Packet_TransportPriority
          (t.PAT_TargetPMTPid.getD 0) t.Packet_TransportScramblingControl
          t.PMT_Continuous_Counter).length) &&& 0x0F })
    exact ⟨segs, _, h, hm⟩

/-! ## PAT selection: loop/spec correspondence -/

/-- The PAT loop's result does not depend on the fuel once the fuel covers
the remaining byte range. -/
theorem patLoopF_fuel (sid : Option Nat) (PAT : List Nat) (stop : Nat) :
    ∀ fuel fuel' b acc, stop - b ≤ fuel → stop - b ≤ fuel' →
      patLoopF sid PAT stop fuel b acc = patLoopF sid PAT stop fuel' b acc := by
  intro fuel
  induction fuel with
  | zero =>
      intro fuel' b acc h h'
      have hb : ¬b < stop := by omega
      cases fuel' with
      | zero => rfl
      | succ m =>
          simp only [patLoopF]
          rw [if_neg hb]
  | succ fuel ih =>
      intro fuel' b acc h h'
      by_cases hb : b < stop
      · cases fuel' with
        | zero => omega
        | succ m =>
            simp only [patLoopF]
            rw [if_pos hb, if_pos hb]
            by_cases h16 : patEntryPID PAT b = 0x10
            · rw [if_pos h16, if_pos h16]
              exact ih m (b + 4) acc (by omega) (by omega)
            · rw [if_neg h16, if_neg h16]
              exact ih m (b + 4) _ (by omega) (by omega)
      · cases fuel' with
        | zero =>
            simp only [patLoopF]
            rw [if_neg hb]
        | succ m =>
            simp only [patLoopF]
            rw [if_neg hb, if_neg hb]

/-- One-step unfolding of the PAT loop, in the shape of the source's
`while` body. -/
theorem patLoop_eq (sid acc : Option Nat) (PAT : List Nat) (b stop : Nat) :
    patLoop sid acc PAT b stop =
      if b < stop then
        (if patEntryPID PAT b = 0x10 then patLoop sid acc PAT (b + 4) stop
         else
           patLoop sid
             (if sid = some (patEntryPN PAT b) then some (patEntryPID PAT b)
              else if sid = none ∧ acc = none then some (patEntryPID PAT b)
              else acc) PAT (b + 4) stop)
      else acc := by
  by_cases hb : b < stop
  · obtain ⟨m, hm⟩ : ∃ m, stop - b = m + 1 := ⟨stop - b - 1, by omega⟩
    rw [patLoop, hm]
    simp only [patLoopF]
    rw [if_pos hb, if_pos hb]
    by_cases h16 : patEntryPID PAT b = 0x10
    · rw [if_pos h16, if_pos h16]
      exact patLoopF_fuel sid PAT stop m (stop - (b + 4)) (b + 4) acc
        (by omega) (by omega)
    · rw [if_neg h16, if_neg h16]
      exact patLoopF_fuel sid PAT stop m (stop - (b + 4)) (b + 4) _
        (by omega) (by omega)
  · have hm : stop - b = 0 := by omega
    rw [patLoop, hm, if_neg hb]
    rfl

/-- With no configured target, a binding once made is never overwritten. -/
theorem listScanPAT_none_some (x : Nat) (entries : List (Nat × Nat)) :
    listScanPAT none (some x) entries = some x := by
  induction entries with
  | nil => rfl
  | cons e rest ih =>
      by_cases h : e.2 = 0x10
      · simp [listScanPAT, h, ih]
      · simp [listScanPAT, h, ih]

/-- With no configured target, the scan binds the first qualifying
(non-NIT) entry. -/
theorem listScanPAT_none (entries : List (Nat × Nat)) :
    listScanPAT none none entries =
      ((entries.filter (fun e => decide (e.2 ≠ 0x10))).head?).map (fun e => e.2) := by
  induction entries with
  | nil => rfl
  | cons e rest ih =>
      by_cases h : e.2 = 0x10
      · simp [listScanPAT, h, ih]
      · simp [listScanPAT, h, listScanPAT_none_some]

/-- With a configured target service id, the scan binds the last entry
whose program number matches (and keeps the incoming accumulator when no
entry matches). -/
theorem listScanPAT_some_scan (tgt : Nat) (entries : List (Nat × Nat)) :
    ∀ acc, listScanPAT (some tgt) acc entries =
      match (entries.filter
          (fun e => decide (e.2 ≠ 0x10) && decide (e.1 = tgt))).getLast? with
      | some em => some em.2
      | none => acc := by
  induction entries with
  | nil => intro acc; rfl
  | cons e rest ih =>
      intro acc
      by_cases h16 : e.2 = 0x10
      · have hfc : List.filter (fun e => decide (e.2 ≠ 0x10) && decide (e.1 = tgt))
            (e :: rest) =
            List.filter (fun e => decide (e.2 ≠ 0x10) && decide (e.1 = tgt)) rest := by
          simp [List.filter_cons, h16]
        rw [hfc]
        simp only [listScanPAT, if_pos h16]
        exact ih acc
      · by_cases ht : e.1 = tgt
        · have hfc : List.filter (fun e => decide (e.2 ≠ 0x10) && decide (e.1 = tgt))
              (e :: rest) =
              e :: List.filter (fun e => decide (e.2 ≠ 0x10) && decide (e.1 = tgt)) rest := by
            simp [List.filter_cons, h16, ht]
          rw [hfc]
          have hacc : listScanPAT (some tgt) acc (e :: rest) =
              listScanPAT (some tgt) (some e.2) rest := by
            simp [listScanPAT, h16, ht]
          rw [hacc, ih (some e.2)]
          cases hfl : rest.filter (fun e => decide (e.2 ≠ 0x10) && decide (e.1 = tgt)) with
          | nil => simp
          | cons x xs =>
              have hsome : (x :: xs).getLast?.isSome := by simp
              obtain ⟨y, hy⟩ := Option.isSome_iff_exists.mp hsome
              simp [hy]
        · have hfc : List.filter (fun e => decide (e.2 ≠ 0x10) && decide (e.1 = tgt))
              (e :: rest) =
              List.filter (fun e => decide (e.2 ≠ 0x10) && decide (e.1 = tgt)) rest := by
            simp [List.filter_cons, ht]
          rw [hfc]
          have hacc : listScanPAT (some tgt) acc (e :: rest) =
              listScanPAT (some tgt) acc rest := by
            simp only [listScanPAT, if_neg h16]
            have h1 : ¬(some tgt = some e.1) := by
              intro h
              exact ht (Option.some.inj h).symm
            have h2 : ¬(some tgt = none ∧ acc = none) := by
              intro h
              exact Option.noConfusion h.1
            simp [h1, h2]
          rw [hacc]
          exact ih acc

/-- The byte-level PAT loop computes exactly the list-level scan on any
byte region encoding the abstract entries. -/
theorem patLoop_encodes (sid : Option Nat) (PAT : List Nat)
    (entries : List (Nat × Nat)) :
    ∀ (b : Nat) (acc : Option Nat), encodesEntries PAT b entries →
      patLoop sid acc PAT b (b + 4 * entries.length) = listScanPAT sid acc entries := by
  induction entries with
  | nil =>
      intro b acc _
      rw [patLoop_eq]
      simp [listScanPAT]
  | cons e rest ih =>
      intro b acc henc
      have hb : b < b + 4 * (e :: rest).length := by
        simp only [List.length_cons]
        omega
      obtain ⟨hpn, hpid⟩ := henc 0 (by simp)
      simp only [Nat.mul_zero, Nat.add_zero, List.getD_cons_zero] at hpn hpid
      have hst : b + 4 * (e :: rest).length = (b + 4) + 4 * rest.length := by
        simp only [List.length_cons]
        ring
      have henc' : encodesEntries PAT (b + 4) rest := by
        intro j hj
        have := henc (j + 1) (by simpa using Nat.succ_lt_succ hj)
        have harg : b + 4 * (j + 1) = (b + 4) + 4 * j := by ring
        rw [harg] at this
        simpa [List.getD_cons_succ] using this
      rw [patLoop_eq, if_pos hb]
      simp only [hpn, hpid]
      by_cases h16 : e.2 = 0x10
      · rw [if_pos h16, hst, ih (b + 4) acc henc']
        simp [listScanPAT, h16]
      · rw [if_neg h16, hst]
        rw [ih (b + 4) _ henc']
        simp [listScanPAT, h16]

/-- Re-emitting the cached PAT touches neither the cached-PAT field nor the
PMT-PID binding. -/
theorem M3U8_Add_PAT_PAT_fields (P : List Nat) (t : TSFragmenter) :
    (t.M3U8_Add_PAT P).PAT_lastPAT = t.PAT_lastPAT ∧
    (t.M3U8_Add_PAT P).PAT_TargetPMTPid = t.PAT_TargetPMTPid := by
  obtain ⟨segs, c, h, _⟩ := M3U8_Add_PAT_spec P t
  rw [h]
  exact ⟨rfl, rfl⟩

/-- Processing a checksum-valid PAT caches it and recomputes the PMT-PID
binding from scratch by the byte-level program-loop scan. -/
theorem processPATSection_fields (PAT : List Nat) (s : TSFragmenter) :
    (s.processPATSection PAT).PAT_lastPAT = some PAT ∧
    (s.processPATSection PAT).PAT_TargetPMTPid =
      patLoop s.PAT_TargetSID none PAT TSSection.EXTENDED_HEADER_SIZE
        (TSSection.BASIC_HEADER_SIZE + TSSection.section_length PAT -
          TSSection.CRC_SIZE) := by
  unfold TSFragmenter.processPATSection
  dsimp only
  constructor
  · split
    · rw [(M3U8_Add_PAT_PAT_fields PAT _).1]
    · rfl
  · split
    · rw [(M3U8_Add_PAT_PAT_fields PAT _).2]
    · rfl

/-- C8 counterexample: the constructor options (`TSFragmenterOptions`:
window `length` and `partTarget` only) offer no way to establish a target
service id — `PAT_TargetSID` is `null` after construction for every
possible options value, so no configuration makes it a set value. -/
theorem C8_counterexample :
    ¬∃ (o : TSFragmenterOptions) (sid : Nat),
      (TSFragmenter.new o).PAT_TargetSID = some sid := by
  rintro ⟨o, sid, h⟩
  simp [TSFragmenter.new] at h

/-- C8 (amended): processing a checksum-valid PAT section caches it and
recomputes the PMT-PID binding from scratch (so the result is independent
of any prior binding): the 4-byte program entries are scanned skipping
entries whose program map PID is `0x10`; with a configured target service
id the binding goes to the matching entry irrespective of entry order (the
last match when several), otherwise to the first qualifying entry.  The
constructor, however, accepts only the window length and part target — the
target service id is never configurable and remains unset. -/
theorem C8_pat_selection (s : TSFragmenter) (PAT : List Nat)
    (entries : List (Nat × Nat))
    (henc : encodesEntries PAT TSSection.EXTENDED_HEADER_SIZE entries)
    (hlen : TSSection.section_length PAT = 9 + 4 * entries.length) :
    (s.processPATSection PAT).PAT_lastPAT = some PAT ∧
    (s.processPATSection PAT).PAT_TargetPMTPid =
      specSelectPMTPid s.PAT_TargetSID entries ∧
    ∀ o : TSFragmenterOptions, (TSFragmenter.new o).PAT_TargetSID = none := by
  have hstop : TSSection.BASIC_HEADER_SIZE + TSSection.section_length PAT -
      TSSection.CRC_SIZE = TSSection.EXTENDED_HEADER_SIZE + 4 * entries.length := by
    rw [hlen]
    simp [TSSection.BASIC_HEADER_SIZE, TSSection.CRC_SIZE,
      TSSection.EXTENDED_HEADER_SIZE]
    omega
  have hspec : listScanPAT s.PAT_TargetSID none entries =
      specSelectPMTPid s.PAT_TargetSID entries := by
    cases hsid : s.PAT_TargetSID with
    | none =>
        rw [listScanPAT_none]
        rfl
    | some t =>
        rw [listScanPAT_some_scan t entries none]
        unfold specSelectPMTPid
        cases hfl : (entries.filter
            (fun e => decide (e.2 ≠ 0x10) && decide (e.1 = t))).getLast? with
        | none => simp only [hfl, Option.map_none']
        | some em => simp only [hfl, Option.map_some']
  refine ⟨(processPATSection_fields PAT s).1, ?_, fun o => rfl⟩
  rw [(processPATSection_fields PAT s).2, hstop,
    patLoop_encodes s.PAT_TargetSID PAT entries TSSection.EXTENDED_HEADER_SIZE none henc,
    hspec]

/-- Witness for C8 (amended) on the demo PAT with its single program
entry, bound with no configured target: the PMT PID binds to `0x100`. -/
theorem C8_witness :
    encodesEntries demoPAT TSSection.EXTENDED_HEADER_SIZE [(1, 0x100)] ∧
    TSSection.section_length demoPAT = 9 + 4 * [(1, 0x100)].length ∧
    (((TSFragmenter.new {}).processPATSection demoPAT).PAT_lastPAT = some demoPAT ∧
      ((TSFragmenter.new {}).processPATSection demoPAT).PAT_TargetPMTPid =
        specSelectPMTPid (TSFragmenter.new {}).PAT_TargetSID [(1, 0x100)] ∧
      ∀ o : TSFragmenterOptions, (TSFragmenter.new o).PAT_TargetSID = none) :=
  ⟨by decide, by decide,
   C8_pat_selection (TSFragmenter.new {}) demoPAT [(1, 0x100)] (by decide) (by decide)⟩

/-- C9 counterexample: in a playlist produced by a real run (IDR at PTS 0,
part cut at 85554, IDR at 171108), the sealed segment at in-range MSN 0 has
EXTINF value 1.902 (sum of its two 0.951-rounded part durations) while its
own wraparound duration rounds to 1.901 — the claimed second equality
fails. -/
theorem C9_counterexample :
    (TSFragmenter.run {} demoRoundingPackets).inRangeSegment 0 = true ∧
    ((TSFragmenter.run {} demoRoundingPackets).M3U8_Segments.get? 0).map
        (fun g => (g.isCompleted, (partLinesAcc 0 g.parts 0).2,
          fix3 ((g.getSeconds).getD 0))) =
      some (true, Rat.divInt 951 500, Rat.divInt 1901 1000) ∧
    (Rat.divInt 951 500 : ℚ) ≠ Rat.divInt 1901 1000 ∧
    toFixed3 (Rat.divInt 951 500) = "1.902" ∧
    toFixed3 (Rat.divInt 1901 1000) = "1.901" := by
  refine ⟨by decide, by decide, by decide, by decide, by decide⟩

/-- C9 (amended): for every rendered segment, the accumulated EXTINF value
is exactly the sum of the sealed partials' durations each taken to
3-decimal precision.  (It need not equal the segment's own wraparound
duration to 3-decimal precision: rounding the parts individually can
differ, see the counterexample.) -/
theorem C9_extinf_sum (msn p0 : Nat) (parts : List PartialSegment) :
    (partLinesAcc msn parts p0).2 =
      ((parts.filter (fun q => q.isCompleted)).map
        (fun q => fix3 ((q.getSeconds).getD 0))).sum := by
  induction parts generalizing p0 with
  | nil => rfl
  | cons q rest ih =>
      cases hq : q.isCompleted with
      | false =>
          have h1 : ¬q.isCompleted = true := by simp [hq]
          rw [partLinesAcc, if_pos h1]
          simp only [List.filter_cons, hq]
          exact ih (p0 + 1)
      | true =>
          have h1 : ¬¬q.isCompleted = true := by simp [hq]
          rw [partLinesAcc, if_neg h1]
          simp only [List.filter_cons, hq, if_pos, List.map_cons, List.sum_cons]
          rw [qadd_eq, ih (p0 + 1)]

/-! ## Pre-Live behaviour -/

/-- Before the first IDR, processing a PAT section does not touch the
stored segments (no re-emission happens yet). -/
theorem processPATSection_segments_preLive (PAT : List Nat) (t : TSFragmenter)
    (h : t.M3U8_Initial_IDR_Detected = false) :
    (t.processPATSection PAT).M3U8_Segments = t.M3U8_Segments := by
  unfold TSFragmenter.processPATSection
  dsimp only
  rw [if_neg (by simp [h])]

/-- Before the first IDR, processing a PMT section does not touch the
stored segments. -/
theorem processPMTSection_segments_preLive (PMT : List Nat) (t : TSFragmenter)
    (h : t.M3U8_Initial_IDR_Detected = false) :
    (t.processPMTSection PMT).M3U8_Segments = t.M3U8_Segments := by
  unfold TSFragmenter.processPMTSection
  dsimp only
  rw [if_neg (by simp [h])]

/-- Before the first IDR, a non-IDR video PES is analysed but has no effect
at all — in particular the pending `Video_Packets` list is NOT cleared. -/
theorem processVideoPES_preLive (pes : List Nat) (t : TSFragmenter)
    (hidr : t.M3U8_Initial_IDR_Detected = false)
    (hno : findIDR pes (esScanStart pes) = false) :
    t.processVideoPES pes = t := by
  unfold TSFragmenter.processVideoPES
  dsimp only
  have hno' : ¬(findIDR pes (esScanStart pes) = true) := by
    rw [hno]
    simp
  have hidr' : ¬(t.M3U8_Initial_IDR_Detected = true) := by
    rw [hidr]
    simp
  rw [if_neg hno', if_neg hidr']

/-- C5 (amended): before `Live` (no IDR yet detected), packets on
non-video PIDs leave the window untouched — they are effectively discarded
— but video-PID packets are NOT discarded: each is retained in the pending
`Video_Packets` list (and is flushed into the first segment when the first
IDR arrives, so pre-Live video packets do appear in the first segment's
buffer — see the counterexample). -/
theorem C5_preLive (s : TSFragmenter) (pkt : TSPacketIn)
    (hpre : s.M3U8_Initial_IDR_Detected = false) :
    (pkt.pid = 0x00 ∨ s.PAT_TargetPMTPid = some pkt.pid ∨
        s.PMT_VideoPid ≠ some pkt.pid →
      (s.stepPacket pkt).M3U8_Segments = s.M3U8_Segments) ∧
    (pkt.pid ≠ 0x00 → s.PAT_TargetPMTPid ≠ some pkt.pid →
      s.PMT_VideoPid = some pkt.pid →
      findIDR pkt.payload (esScanStart pkt.payload) = false →
      (s.stepPacket pkt).M3U8_Segments = s.M3U8_Segments ∧
      (s.stepPacket pkt).Video_Packets = s.Video_Packets ++ [pkt.bytes]) := by
  unfold TSFragmenter.stepPacket
  dsimp only
  constructor
  · intro hdisp
    by_cases h0 : pkt.pid = 0x00
    · rw [if_pos h0]
      by_cases hcrc : pkt.crcOK
      · rw [if_pos hcrc]
        exact processPATSection_segments_preLive _ _ hpre
      · rw [if_neg hcrc]
    · rw [if_neg h0]
      by_cases hpmt : s.PAT_TargetPMTPid = some pkt.pid
      · rw [if_pos hpmt]
        by_cases hcrc : pkt.crcOK
        · rw [if_pos hcrc]
          exact processPMTSection_segments_preLive _ _ hpre
        · rw [if_neg hcrc]
      · rw [if_neg hpmt]
        have hvid : s.PMT_VideoPid ≠ some pkt.pid := by
          rcases hdisp with h | h | h
          · exact absurd h h0
          · exact absurd h hpmt
          · exact h
        rw [if_neg hvid]
        by_cases hpcr : s.PMT_PCRPid = some pkt.pid
        · rw [if_pos hpcr, if_neg (by simp [hpre])]
        · rw [if_neg hpcr, if_neg (by simp [hpre])]
  · intro h0 hpmt hvid hno
    rw [if_neg h0, if_neg hpmt, if_pos hvid]
    rw [processVideoPES_preLive _ _ (by simpa using hpre) hno]
    exact ⟨rfl, rfl⟩

/-- C5 counterexample: in the demo run the third packet (a video-PID
packet carrying a non-IDR access unit, raw bytes `[0x47, 3]`) is processed
while the readiness state is still before `Live` (after the first two
packets no IDR has been detected), yet its bytes appear inside the sealed
first segment's buffer, right after the re-emitted PAT and PMT — there IS
pre-roll buffering of video packets. -/
theorem C5_counterexample :
    (TSFragmenter.run {} [pktPAT, pktPMT]).M3U8_Initial_IDR_Detected = false ∧
    TSFragmenter.getSegment 0 (TSFragmenter.run {} demoPreRollPackets) =
      demoPAT ++ demoPMT ++ [0x47, 3] ++ [0x47, 4] :=
  ⟨by decide, by decide⟩

/-- Witness for C5 (amended), exercising the video-PID conjunct: the
pre-Live non-IDR video packet is retained in `Video_Packets`. -/
theorem C5_witness :
    (TSFragmenter.run {} [pktPAT, pktPMT]).M3U8_Initial_IDR_Detected = false ∧
    (pktVideo 3 0 esNonIDR).pid ≠ 0x00 ∧
    (TSFragmenter.run {} [pktPAT, pktPMT]).PAT_TargetPMTPid ≠
      some (pktVideo 3 0 esNonIDR).pid ∧
    (TSFragmenter.run {} [pktPAT, pktPMT]).PMT_VideoPid =
      some (pktVideo 3 0 esNonIDR).pid ∧
    findIDR (pktVideo 3 0 esNonIDR).payload
      (esScanStart (pktVideo 3 0 esNonIDR).payload) = false ∧
    (((TSFragmenter.run {} [pktPAT, pktPMT]).stepPacket
        (pktVideo 3 0 esNonIDR)).M3U8_Segments =
      (TSFragmenter.run {} [pktPAT, pktPMT]).M3U8_Segments ∧
    ((TSFragmenter.run {} [pktPAT, pktPMT]).stepPacket
        (pktVideo 3 0 esNonIDR)).Video_Packets =
      (TSFragmenter.run {} [pktPAT, pktPMT]).Video_Packets ++
        [(pktVideo 3 0 esNonIDR).bytes]) :=
  ⟨by decide, by decide, by decide, by decide, by decide,
   (C5_preLive (TSFragmenter.run {} [pktPAT, pktPMT]) (pktVideo 3 0 esNonIDR)
      (by decide)).2 (by decide) (by decide) (by decide) (by decide)⟩

/-! ## Query surface -/

/-- `inRangeSegment` is exactly `begin ≤ msn < end`. -/
theorem inRangeSegment_iff (s : TSFragmenter) (msn : Nat) :
    s.inRangeSegment msn = true ↔
      s.M3U8_Begin_Sequence_Number ≤ msn ∧ msn < s.M3U8_End_Sequence_Number := by
  unfold TSFragmenter.inRangeSegment
  by_cases h1 : msn < s.M3U8_Begin_Sequence_Number
  · simp only [if_pos h1]
    constructor
    · intro h
      exact absurd h (by simp)
    · intro h
      omega
  · rw [if_neg h1]
    by_cases h2 : s.M3U8_End_Sequence_Number ≤ msn
    · simp only [if_pos h2]
      constructor
      · intro h
        exact absurd h (by simp)
      · intro h
        omega
    · simp only [if_neg h2]
      constructor
      · intro _
        omega
      · intro _
        trivial

/-- An out-of-range MSN resolves to no segment. -/
theorem M3U8_Get_Segment_none (s : TSFragmenter) (msn : Nat)
    (h : s.inRangeSegment msn = false) : s.M3U8_Get_Segment msn = none := by
  unfold TSFragmenter.M3U8_Get_Segment
  rw [if_neg (by simp [h])]

/-- An out-of-range target resolves to no partial. -/
theorem M3U8_Get_Partial_none (s : TSFragmenter) (msn part : Nat)
    (h : s.inRangePartial msn part = false) : s.M3U8_Get_Partial msn part = none := by
  unfold TSFragmenter.M3U8_Get_Partial
  rw [if_neg (by simp [h])]

/-- C7: the query surface never signals an error.  Out of range: fetch is
empty, fulfilled is vacuously true, callback registration returns false
and registers nothing.  In range: fulfilled is exactly sealedness, and
fetching an unsealed target yields the empty byte sequence. -/
theorem C7_query_surface (s : TSFragmenter) (hwf : QueryWF s) (msn part cb : Nat) :
    (s.inRangeSegment msn = false →
      s.getSegment msn = [] ∧ s.isFulfilledSegment msn = true ∧
      s.addSegmentCallback msn cb = (false, s)) ∧
    (s.inRangeSegment msn = true →
      ∃ g, s.M3U8_Get_Segment msn = some g ∧
        s.isFulfilledSegment msn = g.isCompleted ∧
        (g.isCompleted = false → s.getSegment msn = [])) ∧
    (s.inRangePartial msn part = false →
      s.getPartial msn part = [] ∧ s.isFulfilledPartial msn part = true ∧
      s.addPartialCallback msn part cb = (false, s)) ∧
    (s.inRangePartial msn part = true →
      ∃ q, s.M3U8_Get_Partial msn part = some q ∧
        s.isFulfilledPartial msn part = q.isCompleted ∧
        (q.isCompleted = false → s.getPartial msn part = [])) := by
  obtain ⟨hbe, hlen, hsegs⟩ := hwf
  refine ⟨?_, ?_, ?_, ?_⟩
  · intro h
    have hg := M3U8_Get_Segment_none s msn h
    unfold TSFragmenter.getSegment TSFragmenter.isFulfilledSegment
      TSFragmenter.addSegmentCallback
    rw [hg]
    exact ⟨rfl, rfl, rfl⟩
  · intro h
    obtain ⟨h1, h2⟩ := (inRangeSegment_iff s msn).mp h
    have hidx : msn - s.M3U8_Begin_Sequence_Number < s.M3U8_Segments.length := by
      omega
    have hg : s.M3U8_Get_Segment msn =
        some (s.M3U8_Segments.get ⟨msn - s.M3U8_Begin_Sequence_Number, hidx⟩) := by
      unfold TSFragmenter.M3U8_Get_Segment
      rw [if_pos (by simp [h])]
      exact List.get?_eq_get hidx
    refine ⟨_, hg, ?_, ?_⟩
    · unfold TSFragmenter.isFulfilledSegment
      rw [hg]
    · intro hopen
      have hmem := List.get_mem s.M3U8_Segments _ hidx
      have hwfg := hsegs _ hmem
      have hend : (s.M3U8_Segments.get
          ⟨msn - s.M3U8_Begin_Sequence_Number, hidx⟩).seg.endPTS = none := by
        have hs := hopen
        unfold Segment.isCompleted PartialSegment.isCompleted at hs
        cases hcase : (s.M3U8_Segments.get
            ⟨msn - s.M3U8_Begin_Sequence_Number, hidx⟩).seg.endPTS with
        | none => rfl
        | some v =>
            rw [hcase] at hs
            simp at hs
      unfold TSFragmenter.getSegment
      rw [hg]
      unfold Segment.getBuffer PartialSegment.getBuffer
      exact hwfg.1 hend
  · intro h
    have hq := M3U8_Get_Partial_none s msn part h
    unfold TSFragmenter.getPartial TSFragmenter.isFulfilledPartial
      TSFragmenter.addPartialCallback
    rw [hq]
    exact ⟨rfl, rfl, rfl⟩
  · intro h
    have hseg : s.inRangeSegment msn = true := by
      by_contra hfalse
      have : s.inRangeSegment msn = false := by
        cases hr : s.inRangeSegment msn
        · rfl
        · exact absurd hr hfalse
      unfold TSFragmenter.inRangePartial at h
      rw [if_pos (by simp [this])] at h
      exact Bool.noConfusion h
    obtain ⟨h1, h2⟩ := (inRangeSegment_iff s msn).mp hseg
    have hidx : msn - s.M3U8_Begin_Sequence_Number < s.M3U8_Segments.length := by
      omega
    have hgget : s.M3U8_Segments.get? (msn - s.M3U8_Begin_Sequence_Number) =
        some (s.M3U8_Segments.get ⟨msn - s.M3U8_Begin_Sequence_Number, hidx⟩) :=
      List.get?_eq_get hidx
    have hp : (((s.M3U8_Segments.get
        ⟨msn - s.M3U8_Begin_Sequence_Number, hidx⟩)).getPartial part).isSome := by
      unfold TSFragmenter.inRangePartial at h
      rw [if_neg (by simp [hseg]), hgget] at h
      exact h
    obtain ⟨q, hqeq⟩ := Option.isSome_iff_exists.mp hp
    have hget : s.M3U8_Get_Partial msn part = some q := by
      unfold TSFragmenter.M3U8_Get_Partial
      rw [if_pos (by simpa using h), hgget]
      exact hqeq
    refine ⟨q, hget, ?_, ?_⟩
    · unfold TSFragmenter.isFulfilledPartial
      rw [hget]
    · intro hopen
      have hmemg := List.get_mem s.M3U8_Segments _ hidx
      have hwfg := hsegs _ hmemg
      have hmemq : q ∈ (s.M3U8_Segments.get
          ⟨msn - s.M3U8_Begin_Sequence_Number, hidx⟩).parts := by
        unfold Segment.getPartial at hqeq
        exact List.get?_mem hqeq
      have hwfq := hwfg.2 q hmemq
      have hend : q.endPTS = none := by
        unfold PartialSegment.isCompleted at hopen
        exact Option.not_isSome_iff_eq_none.mp (by simp [hopen])
      unfold TSFragmenter.getPartial
      rw [hget]
      unfold PartialSegment.getBuffer
      exact hwfq hend

/-- Witness for C7 on the demo run (window = MSNs 0 and 1), querying
MSN 0 / partial 0 with callback id 42. -/
theorem C7_witness :
    QueryWF (TSFragmenter.run {} demoRoundingPackets) ∧
    ((TSFragmenter.run {} demoRoundingPackets).inRangeSegment 0 = false →
      (TSFragmenter.run {} demoRoundingPackets).getSegment 0 = [] ∧
      (TSFragmenter.run {} demoRoundingPackets).isFulfilledSegment 0 = true ∧
      (TSFragmenter.run {} demoRoundingPackets).addSegmentCallback 0 42 =
        (false, TSFragmenter.run {} demoRoundingPackets)) ∧
    ((TSFragmenter.run {} demoRoundingPackets).inRangeSegment 0 = true →
      ∃ g, (TSFragmenter.run {} demoRoundingPackets).M3U8_Get_Segment 0 = some g ∧
        (TSFragmenter.run {} demoRoundingPackets).isFulfilledSegment 0 = g.isCompleted ∧
        (g.isCompleted = false →
          (TSFragmenter.run {} demoRoundingPackets).getSegment 0 = [])) ∧
    ((TSFragmenter.run {} demoRoundingPackets).inRangePartial 0 0 = false →
      (TSFragmenter.run {} demoRoundingPackets).getPartial 0 0 = [] ∧
      (TSFragmenter.run {} demoRoundingPackets).isFulfilledPartial 0 0 = true ∧
      (TSFragmenter.run {} demoRoundingPackets).addPartialCallback 0 0 42 =
        (false, TSFragmenter.run {} demoRoundingPackets)) ∧
    ((TSFragmenter.run {} demoRoundingPackets).inRangePartial 0 0 = true →
      ∃ q, (TSFragmenter.run {} demoRoundingPackets).M3U8_Get_Partial 0 0 = some q ∧
        (TSFragmenter.run {} demoRoundingPackets).isFulfilledPartial 0 0 =
          q.isCompleted ∧
        (q.isCompleted = false →
          (TSFragmenter.run {} demoRoundingPackets).getPartial 0 0 = [])) :=
  ⟨by decide, C7_query_surface (TSFragmenter.run {} demoRoundingPackets)
    (by decide) 0 0 42⟩

/-! ## The part-cut heuristic -/

/-- Resolving the current open partial: last partial of the last stored
segment. -/
theorem M3U8_Get_Last_Partial_eq (s : TSFragmenter)
    (hsz : 0 < s.M3U8_End_Sequence_Number - s.M3U8_Begin_Sequence_Number)
    (seg : Segment)
    (hseg : s.M3U8_Segments.get?
      (s.M3U8_End_Sequence_Number - s.M3U8_Begin_Sequence_Number - 1) = some seg)
    (part : PartialSegment)
    (hpart : seg.parts.get? (seg.parts.length - 1) = some part) :
    s.M3U8_Get_Last_Partial = some part := by
  unfold TSFragmenter.M3U8_Get_Last_Partial
  rw [if_neg (by omega), hseg]
  exact hpart

/-- `M3U8_New_Partial` rewrites exactly the last stored segment, sealing
its last partial at the boundary PTS and opening a fresh one there. -/
theorem M3U8_New_Partial_spec (p : Nat) (s : TSFragmenter)
    (hsz : 0 < s.M3U8_End_Sequence_Number - s.M3U8_Begin_Sequence_Number)
    (seg : Segment)
    (hseg : s.M3U8_Segments.get?
      (s.M3U8_End_Sequence_Number - s.M3U8_Begin_Sequence_Number - 1) = some seg)
    (part : PartialSegment)
    (hpart : seg.parts.get? (seg.parts.length - 1) = some part) :
    s.M3U8_New_Partial p =
      { s with
          M3U8_Segments := s.M3U8_Segments.set
            (s.M3U8_End_Sequence_Number - s.M3U8_Begin_Sequence_Number - 1)
            (((seg.completePartial p).1).newPartial p false) } ∧
    partsSig (((seg.completePartial p).1).newPartial p false) =
      (partsSig seg).dropLast ++ [(part.beginPTS, some p), (p, none)] := by
  constructor
  · unfold TSFragmenter.M3U8_New_Partial
    rw [if_neg (by omega), hseg]
  · have hlast : seg.parts.getLast? = some part := by
      rw [List.getLast?_eq_getElem?, ← List.get?_eq_getElem?]
      exact hpart
    unfold Segment.completePartial
    rw [hlast]
    unfold Segment.newPartial partsSig PartialSegment.complete PartialSegment.new
    dsimp only
    rw [List.map_append, List.map_append, List.map_dropLast]
    simp

/-- C4: while `Live` with a non-empty window, a non-IDR video access unit
at PTS `p` seals the current open partial with end PTS `p` and opens a new
partial with begin PTS `p` within the same segment if and only if
`0.85 * partTarget < elapsed ≤ partTarget`, where `elapsed` is the
wraparound time from the open partial's begin PTS to `p`; otherwise the
partial boundaries of the segment are unchanged (media bytes may still be
appended).  The window MSN bounds never move on a non-IDR unit. -/
theorem C4_part_cut (s : TSFragmenter) (pes : List Nat) (p : Nat)
    (hlive : s.M3U8_Initial_IDR_Detected = true)
    (hnoidr : findIDR pes (esScanStart pes) = false)
    (hpts : parsePTS pes = p)
    (hsz : 0 < s.M3U8_End_Sequence_Number - s.M3U8_Begin_Sequence_Number)
    (seg : Segment)
    (hseg : s.M3U8_Segments.get?
      (s.M3U8_End_Sequence_Number - s.M3U8_Begin_Sequence_Number - 1) = some seg)
    (part : PartialSegment)
    (hpart : seg.parts.get? (seg.parts.length - 1) = some part) :
    (s.processVideoPES pes).M3U8_Begin_Sequence_Number =
      s.M3U8_Begin_Sequence_Number ∧
    (s.processVideoPES pes).M3U8_End_Sequence_Number =
      s.M3U8_End_Sequence_Number ∧
    ∃ seg', (s.processVideoPES pes).M3U8_Segments.get?
        (s.M3U8_End_Sequence_Number - s.M3U8_Begin_Sequence_Number - 1) =
          some seg' ∧
      (if (0.85 : ℚ) * s.M3U8_Part_Target < part.estimateSeconds p ∧
          part.estimateSeconds p ≤ s.M3U8_Part_Target then
        partsSig seg' =
          (partsSig seg).dropLast ++ [(part.beginPTS, some p), (p, none)]
      else partsSig seg' = partsSig seg) := by
  obtain ⟨hidx, -⟩ := List.get?_eq_some.mp hseg
  have hsegE : s.M3U8_Segments[s.M3U8_End_Sequence_Number -
      s.M3U8_Begin_Sequence_Number - 1]? = some seg := by
    rw [← List.get?_eq_getElem?]
    exact hseg
  have hno' : ¬(findIDR pes (esScanStart pes) = true) := by
    rw [hnoidr]
    simp
  have hconv : (Rat.divInt 85 100 : ℚ) = 0.85 := by
    rw [Rat.divInt_eq_div]
    norm_num
  have hcond : (qmul s.M3U8_Part_Target (Rat.divInt 85 100) <
        part.estimateSeconds p ∧
        part.estimateSeconds p ≤ s.M3U8_Part_Target) ↔
      ((0.85 : ℚ) * s.M3U8_Part_Target < part.estimateSeconds p ∧
        part.estimateSeconds p ≤ s.M3U8_Part_Target) := by
    rw [qmul_eq, hconv, mul_comm]
  have hlastp := M3U8_Get_Last_Partial_eq s hsz seg hseg part hpart
  unfold TSFragmenter.processVideoPES
  dsimp only
  rw [hpts, if_neg hno', if_pos hlive, if_pos (by exact hno'), hlastp]
  dsimp only
  by_cases hc : qmul s.M3U8_Part_Target (Rat.divInt 85 100) <
      part.estimateSeconds p ∧ part.estimateSeconds p ≤ s.M3U8_Part_Target
  · rw [if_pos hc]
    obtain ⟨hNP, hsig⟩ := M3U8_New_Partial_spec p s hsz seg hseg part hpart
    rw [hNP]
    obtain ⟨segs, hF, hm⟩ := fold_Add_Packet_spec s.Video_Packets
      ({ s with
          M3U8_Segments := s.M3U8_Segments.set
            (s.M3U8_End_Sequence_Number - s.M3U8_Begin_Sequence_Number - 1)
            (((seg.completePartial p).1).newPartial p false) })
    rw [hF]
    refine ⟨rfl, rfl, ?_⟩
    have hm' := congrArg
      (fun l => l[s.M3U8_End_Sequence_Number - s.M3U8_Begin_Sequence_Number - 1]?)
      hm
    simp only [List.getElem?_map] at hm'
    rw [List.getElem?_set_self (by simpa using hidx)] at hm'
    simp only [Option.map_some'] at hm'
    obtain ⟨seg', hseg', hsig'⟩ := Option.map_eq_some'.mp hm'
    refine ⟨seg', by rw [List.get?_eq_getElem?]; exact hseg', ?_⟩
    rw [if_pos (hcond.mp hc), hsig', hsig]
  · rw [if_neg hc]
    obtain ⟨segs, hF, hm⟩ := fold_Add_Packet_spec s.Video_Packets s
    rw [hF]
    refine ⟨rfl, rfl, ?_⟩
    have hm' := congrArg
      (fun l => l[s.M3U8_End_Sequence_Number - s.M3U8_Begin_Sequence_Number - 1]?)
      hm
    simp only [List.getElem?_map] at hm'
    rw [hsegE] at hm'
    simp only [Option.map_some'] at hm'
    obtain ⟨seg', hseg', hsig'⟩ := Option.map_eq_some'.mp hm'
    refine ⟨seg', by rw [List.get?_eq_getElem?]; exact hseg', ?_⟩
    rw [if_neg (fun hcontra => hc (hcond.mpr hcontra)), hsig']

/-- Witness for C4 on the demo live run (one segment, one open partial at
begin PTS 0) fed a non-IDR access unit at PTS 85554 (0.9506 s elapsed,
inside the cut interval): the open partial is sealed at 85554 and a new
partial is opened there. -/
theorem C4_witness :
    (TSFragmenter.run {} demoLivePackets).M3U8_Initial_IDR_Detected = true ∧
    findIDR (mkVideoPES 85554 esNonIDR)
      (esScanStart (mkVideoPES 85554 esNonIDR)) = false ∧
    parsePTS (mkVideoPES 85554 esNonIDR) = 85554 ∧
    ∃ seg', ((TSFragmenter.run {} demoLivePackets).processVideoPES
        (mkVideoPES 85554 esNonIDR)).M3U8_Segments.get? 0 = some seg' ∧
      partsSig seg' = [(0, some 85554), (85554, none)] := by
  refine ⟨by decide, by decide, by decide, ?_⟩
  obtain ⟨-, -, seg', hget, hif⟩ :=
    C4_part_cut (TSFragmenter.run {} demoLivePackets) (mkVideoPES 85554 esNonIDR)
      85554 (by decide) (by decide) (by decide) (by decide)
      ((TSFragmenter.run {} demoLivePackets).M3U8_Segments.get ⟨0, by decide⟩)
      (by decide)
      (((TSFragmenter.run {} demoLivePackets).M3U8_Segments.get
        ⟨0, by decide⟩).parts.get ⟨0, by decide⟩)
      (by decide)
  have hest : ((((TSFragmenter.run {} demoLivePackets).M3U8_Segments.get
      ⟨0, by decide⟩).parts.get ⟨0, by decide⟩)).estimateSeconds 85554 =
      Rat.divInt 4753 5000 := by decide
  have htgt : (TSFragmenter.run {} demoLivePackets).M3U8_Part_Target = 1 := by
    decide
  rw [if_pos ?hcut] at hif
  case hcut =>
    rw [hest, htgt, Rat.divInt_eq_div]
    constructor
    · norm_num
    · norm_num
  have hsig : ((partsSig ((TSFragmenter.run {} demoLivePackets).M3U8_Segments.get
      ⟨0, by decide⟩)).dropLast ++
      [(((((TSFragmenter.run {} demoLivePackets).M3U8_Segments.get
        ⟨0, by decide⟩).parts.get ⟨0, by decide⟩)).beginPTS, some 85554),
       (85554, none)]) = [(0, some 85554), (85554, none)] := by decide
  rw [hsig] at hif
  exact ⟨seg', hget, hif⟩

/-! ## Window invariant preservation -/

/-- Appending a media chunk preserves the window bookkeeping. -/
theorem Add_Packet_WindowInv (n : Nat) (p : List Nat) (t : TSFragmenter)
    (h : WindowInv n t) : WindowInv n (t.M3U8_Add_Packet p) := by
  obtain ⟨segs, hE, hm⟩ := M3U8_Add_Packet_spec p t
  rw [hE]
  have hlen : segs.length = t.M3U8_Segments.length := by
    simpa using congrArg List.length hm
  unfold WindowInv at h ⊢
  dsimp only
  rw [hlen]
  exact h

/-- Flushing a chunk list preserves the window bookkeeping. -/
theorem fold_Add_Packet_WindowInv (n : Nat) (ps : List (List Nat))
    (t : TSFragmenter) (h : WindowInv n t) :
    WindowInv n (ps.foldl (fun st p => st.M3U8_Add_Packet p) t) := by
  obtain ⟨segs, hE, hm⟩ := fold_Add_Packet_spec ps t
  rw [hE]
  have hlen : segs.length = t.M3U8_Segments.length := by
    simpa using congrArg List.length hm
  unfold WindowInv at h ⊢
  dsimp only
  rw [hlen]
  exact h

/-- Re-emitting the cached PAT preserves the window bookkeeping. -/
theorem Add_PAT_WindowInv (n : Nat) (P : List Nat) (t : TSFragmenter)
    (h : WindowInv n t) : WindowInv n (t.M3U8_Add_PAT P) := by
  obtain ⟨segs, c, hE, hm⟩ := M3U8_Add_PAT_spec P t
  rw [hE]
  have hlen : segs.length = t.M3U8_Segments.length := by
    simpa using congrArg List.length hm
  unfold WindowInv at h ⊢
  dsimp only
  rw [hlen]
  exact h

/-- Re-emitting the cached PMT preserves the window bookkeeping. -/
theorem Add_PMT_WindowInv (n : Nat) (P : List Nat) (t : TSFragmenter)
    (h : WindowInv n t) : WindowInv n (t.M3U8_Add_PMT P) := by
  obtain ⟨segs, c, hE, hm⟩ := M3U8_Add_PMT_spec P t
  rw [hE]
  have hlen : segs.length = t.M3U8_Segments.length := by
    simpa using congrArg List.length hm
  unfold WindowInv at h ⊢
  dsimp only
  rw [hlen]
  exact h

/-- A part cut preserves the window bookkeeping. -/
theorem New_Partial_WindowInv (n b : Nat) (t : TSFragmenter)
    (h : WindowInv n t) : WindowInv n (t.M3U8_New_Partial b) := by
  unfold TSFragmenter.M3U8_New_Partial
  dsimp only
  split
  · exact h
  · split
    · exact h
    · unfold WindowInv at h ⊢
      dsimp only
      rw [List.length_set]
      exact h

/-- Creating a segment (sealing the last one, pushing a fresh one and
evicting the oldest when the window overflows) preserves the window
bookkeeping; the end MSN advances by one exactly when both PSI sections
are cached. -/
theorem New_Segment_WindowInv (n b : Nat) (t : TSFragmenter)
    (h : WindowInv n t) : WindowInv n (t.M3U8_New_Segment b) := by
  unfold TSFragmenter.M3U8_New_Segment
  split
  · dsimp only
    apply Add_PMT_WindowInv
    apply Add_PAT_WindowInv
    obtain ⟨hN, hlen, hbeg⟩ := h
    have hs1 : ∃ segs1,
        (if t.M3U8_End_Sequence_Number - t.M3U8_Begin_Sequence_Number = 0 then t
         else
          match t.M3U8_Segments.get?
              (t.M3U8_End_Sequence_Number - t.M3U8_Begin_Sequence_Number - 1) with
          | none => t
          | some lastSegment =>
              { t with
                  M3U8_Segments := t.M3U8_Segments.set
                    (t.M3U8_End_Sequence_Number - t.M3U8_Begin_Sequence_Number - 1)
                    (lastSegment.complete b).1 }) =
          { t with M3U8_Segments := segs1 } ∧
        segs1.length = t.M3U8_Segments.length := by
      by_cases h0 : t.M3U8_End_Sequence_Number - t.M3U8_Begin_Sequence_Number = 0
      · exact ⟨t.M3U8_Segments, by rw [if_pos h0], rfl⟩
      · rw [if_neg h0]
        cases hg : t.M3U8_Segments.get?
            (t.M3U8_End_Sequence_Number - t.M3U8_Begin_Sequence_Number - 1) with
        | none => exact ⟨t.M3U8_Segments, rfl, rfl⟩
        | some g =>
            refine ⟨t.M3U8_Segments.set
              (t.M3U8_End_Sequence_Number - t.M3U8_Begin_Sequence_Number - 1)
              (g.complete b).1, rfl, by rw [List.length_set]⟩
    obtain ⟨segs1, hEq1, hlen1⟩ := hs1
    rw [hEq1]
    dsimp only
    split
    · unfold WindowInv
      dsimp only
      refine ⟨hN, ?_, ?_⟩ <;>
        · simp only [List.length_tail, List.length_append, List.length_cons,
            List.length_nil, hlen1]
          omega
    · unfold WindowInv
      dsimp only
      refine ⟨hN, ?_, ?_⟩ <;>
        · simp only [List.length_append, List.length_cons, List.length_nil, hlen1]
          omega
  · exact h

/-- PAT-section processing preserves the window bookkeeping. -/
theorem processPATSection_WindowInv (n : Nat) (PAT : List Nat) (t : TSFragmenter)
    (h : WindowInv n t) : WindowInv n (t.processPATSection PAT) := by
  unfold TSFragmenter.processPATSection
  dsimp only
  split
  · apply Add_PAT_WindowInv
    exact h
  · exact h

/-- PMT-section processing preserves the window bookkeeping. -/
theorem processPMTSection_WindowInv (n : Nat) (PMT : List Nat) (t : TSFragmenter)
    (h : WindowInv n t) : WindowInv n (t.processPMTSection PMT) := by
  unfold TSFragmenter.processPMTSection
  dsimp only
  split
  · apply Add_PMT_WindowInv
    exact h
  · exact h

/-- Video-PES processing preserves the window bookkeeping. -/
theorem processVideoPES_WindowInv (n : Nat) (pes : List Nat) (t : TSFragmenter)
    (h : WindowInv n t) : WindowInv n (t.processVideoPES pes) := by
  unfold TSFragmenter.processVideoPES
  dsimp only
  have h1 : WindowInv n
      (if findIDR pes (esScanStart pes) = true then
        TSFragmenter.M3U8_New_Segment (parsePTS pes)
          { t with M3U8_Initial_IDR_Detected := true }
      else t) := by
    split
    · apply New_Segment_WindowInv
      exact h
    · exact h
  generalize (if findIDR pes (esScanStart pes) = true then
      TSFragmenter.M3U8_New_Segment (parsePTS pes)
        { t with M3U8_Initial_IDR_Detected := true }
    else t) = t1 at h1 ⊢
  split
  · have h2 : WindowInv n
        (if ¬findIDR pes (esScanStart pes) = true then
          match t1.M3U8_Get_Last_Partial with
          | some part =>
              if qmul t1.M3U8_Part_Target (Rat.divInt 85 100) <
                  part.estimateSeconds (parsePTS pes) ∧
                  part.estimateSeconds (parsePTS pes) ≤ t1.M3U8_Part_Target then
                t1.M3U8_New_Partial (parsePTS pes)
              else t1
          | none => t1
        else t1) := by
      split
      · split
        · split
          · apply New_Partial_WindowInv
            exact h1
          · exact h1
        · exact h1
      · exact h1
    generalize (if ¬findIDR pes (esScanStart pes) = true then
        match t1.M3U8_Get_Last_Partial with
        | some part =>
            if qmul t1.M3U8_Part_Target (Rat.divInt 85 100) <
                part.estimateSeconds (parsePTS pes) ∧
                part.estimateSeconds (parsePTS pes) ≤ t1.M3U8_Part_Target then
              t1.M3U8_New_Partial (parsePTS pes)
            else t1
        | none => t1
      else t1) = t2 at h2
    have h3 := fold_Add_Packet_WindowInv n t2.Video_Packets t2 h2
    unfold WindowInv at h3 ⊢
    exact h3
  · exact h1

/-- One `_write` packet step preserves the window bookkeeping. -/
theorem stepPacket_WindowInv (n : Nat) (pkt : TSPacketIn) (t : TSFragmenter)
    (h : WindowInv n t) : WindowInv n (t.stepPacket pkt) := by
  unfold TSFragmenter.stepPacket
  dsimp only
  have h0 : WindowInv n
      { t with
          Packet_TransportErrorIndicator := pkt.tei
          Packet_TransportPriority := pkt.tp
          Packet_TransportScramblingControl := pkt.tsc } := h
  split
  · split
    · exact processPATSection_WindowInv n _ _ h0
    · exact h0
  · split
    · split
      · exact processPMTSection_WindowInv n _ _ h0
      · exact h0
    · split
      · exact processVideoPES_WindowInv n _ _ h0
      · split
        · split
          · exact Add_Packet_WindowInv n _ _ h0
          · exact h0
        · split
          · exact Add_Packet_WindowInv n _ _ h0
          · exact h0

/-- The window bookkeeping holds after any ingestion run. -/
theorem run_WindowInv (options : TSFragmenterOptions) (packets : List TSPacketIn) :
    WindowInv (options.length.getD 3) (TSFragmenter.run options packets) := by
  unfold TSFragmenter.run
  have hinit : WindowInv (options.length.getD 3) (TSFragmenter.new options) := by
    unfold WindowInv TSFragmenter.new
    simp
  generalize TSFragmenter.new options = s0 at hinit
  induction packets generalizing s0 with
  | nil => simpa using hinit
  | cons pkt rest ih =>
      simp only [List.foldl_cons]
      exact ih _ (stepPacket_WindowInv _ pkt s0 hinit)

/-- C1: in every run, the configured window length is `options.length`
(default 3); the end MSN counts the segments created by IDR access units
with both PSI sections cached (it is incremented exactly by
`M3U8_New_Segment`); at all times begin MSN ≤ end MSN, the number of
stored segments is `end - begin` and never exceeds the window length; and
once more than `N` segments have been created (`N < end MSN`, i.e. K > N),
the window holds exactly `N` segments and its begin MSN equals `K - N`. -/
theorem C1_window_invariant (options : TSFragmenterOptions)
    (packets : List TSPacketIn) :
    (TSFragmenter.run options packets).M3U8_Segments_Length =
      options.length.getD 3 ∧
    (TSFragmenter.run options packets).M3U8_Begin_Sequence_Number ≤
      (TSFragmenter.run options packets).M3U8_End_Sequence_Number ∧
    (TSFragmenter.run options packets).M3U8_Segments.length =
      (TSFragmenter.run options packets).M3U8_End_Sequence_Number -
        (TSFragmenter.run options packets).M3U8_Begin_Sequence_Number ∧
    (TSFragmenter.run options packets).M3U8_Segments.length ≤
      (TSFragmenter.run options packets).M3U8_Segments_Length ∧
    ((TSFragmenter.run options packets).M3U8_Segments_Length <
        (TSFragmenter.run options packets).M3U8_End_Sequence_Number →
      (TSFragmenter.run options packets).M3U8_Segments.length =
        (TSFragmenter.run options packets).M3U8_Segments_Length ∧
      (TSFragmenter.run options packets).M3U8_Begin_Sequence_Number =
        (TSFragmenter.run options packets).M3U8_End_Sequence_Number -
          (TSFragmenter.run options packets).M3U8_Segments_Length) := by
  obtain ⟨hN, hlen, hbeg⟩ := run_WindowInv options packets
  refine ⟨hN, by omega, by omega, by omega, ?_⟩
  intro hK
  omega

/-- Witness for C1: window length 1, two segment-creating IDRs
(K = 2 > N = 1): one stored segment, begin MSN `2 - 1 = 1`. -/
theorem C1_witness :
    (TSFragmenter.run { length := some 1 } demoRoundingPackets).M3U8_Segments_Length <
      (TSFragmenter.run { length := some 1 }
        demoRoundingPackets).M3U8_End_Sequence_Number ∧
    ((TSFragmenter.run { length := some 1 }
        demoRoundingPackets).M3U8_Segments.length =
      (TSFragmenter.run { length := some 1 }
        demoRoundingPackets).M3U8_Segments_Length ∧
    (TSFragmenter.run { length := some 1 }
        demoRoundingPackets).M3U8_Begin_Sequence_Number =
      (TSFragmenter.run { length := some 1 }
        demoRoundingPackets).M3U8_End_Sequence_Number -
        (TSFragmenter.run { length := some 1 }
          demoRoundingPackets).M3U8_Segments_Length) :=
  ⟨by decide,
   (C1_window_invariant { length := some 1 } demoRoundingPackets).2.2.2.2
     (by decide)⟩
